import Mathlib

/-!
Smart Tourist dashboard (script.js): record management.

A shallow embedding of the in-memory collections of `script.js`
(`window.issuedIDs`, `window.firReports`, `window.checkins`) and of the
handlers that read and mutate them.  JavaScript strings are embedded as
`String`; the DOM (messages, tables, section switching) is not part of the
state; a handler returns the arrays it leaves behind and the error it
reported, if any.
-/

namespace TouristApp

/-! ## Data model -/

/-- Status of a check-in row: the two string literals the script writes,
`'Checked-in'` and `'Checked-out'`. -/
inductive Status where
  | checkedIn
  | checkedOut
deriving DecidableEq, Repr

/-- One row of `#itineraryList`, as collected by the registration handler. -/
structure ItineraryItem where
  location : String
  date : String
  type : String
deriving DecidableEq, Repr

/-- One row of `#emergencyList`, as collected by the registration handler. -/
structure EmergencyContact where
  name : String
  relationship : String
  phone : String
deriving DecidableEq, Repr

/-- An element of `window.issuedIDs`.  The property `checkedIn` is not part of
the object literal pushed at registration; it is absent (`none`) until the
check-in or check-out code assigns it. -/
structure Tourist where
  digitalId : String
  fullName : String
  email : String
  phone : String
  dob : String
  nationality : String
  entryPoint : String
  docType : String
  docNumber : String
  checkIn : String
  checkOut : String
  itinerary : List ItineraryItem
  emergencyContacts : List EmergencyContact
  photoBase64 : Option String
  revoked : Bool
  checkedIn : Option Bool
deriving DecidableEq, Repr

/-- An element of `window.checkins`. -/
structure Checkin where
  name : String
  id : String
  location : String
  time : String
  status : Status
deriving DecidableEq, Repr

/-- An element of `window.firReports`. -/
structure FirReport where
  id : String
  name : String
  type : String
  desc : String
  location : String
  date : String
  reportTime : String
deriving DecidableEq, Repr

/-- The three global arrays of the script. -/
structure State where
  issuedIDs : List Tourist
  firReports : List FirReport
  checkins : List Checkin
deriving DecidableEq, Repr

/-- The state right after the script is loaded: three empty arrays. -/
def State.init : State := ⟨[], [], []⟩

/-- The ways a handler reports failure to the user: "Please fill all required
fields.", "Error processing image. Registration failed." and "Invalid or
revoked Digital ID." -/
inductive Error where
  | missingFields
  | imageError
  | invalidId
deriving DecidableEq, Repr

/-- What a handler leaves behind: the arrays after it returned and the error it
reported, if any.  A handler that returns early leaves the arrays as they were. -/
structure Outcome where
  state : State
  error : Option Error
deriving DecidableEq, Repr

/-! ## Array helpers -/

/-- Effect of `const x = arr.find(p); if (x) x.field = ...`: the first element
satisfying `p` is updated in place, every other element is untouched, and an
array without such an element is left as it is. -/
def mutateFirst {α : Type} (p : α → Bool) (f : α → α) : List α → List α
  | [] => []
  | x :: xs => if p x then f x :: xs else x :: mutateFirst p f xs

/-! ## Statistics -/

/-- The three numbers `updateStats` writes into the dashboard. -/
structure Stats where
  totalIDs : Nat
  activeIDs : Nat
  checkedIn : Nat
deriving DecidableEq, Repr

/-- Embedding of `updateStats`: the values it computes from the current arrays. -/
def updateStats (s : State) : Stats :=
  { totalIDs := s.issuedIDs.length
    activeIDs := (s.issuedIDs.filter (fun i => !i.revoked)).length
    checkedIn := (s.checkins.filter (fun c => c.status == Status.checkedIn)).length }

/-! ## Check-out -/

/-- The predicate of `window.checkins.find` in `checkout`:
`c.id === id && c.time === time && c.status === 'Checked-in'`. -/
def checkoutMatch (id time : String) (c : Checkin) : Bool :=
  c.id == id && c.time == time && c.status == Status.checkedIn

/-- Embedding of `checkout(id, time)` (the script declares it twice with the
same body).  Rendering calls are omitted. -/
def checkout (s : State) (id time : String) : State :=
  match s.checkins.find? (checkoutMatch id time) with
  | none => s
  | some _ =>
    let checkins := mutateFirst (checkoutMatch id time)
      (fun c => { c with status := Status.checkedOut }) s.checkins
    let hasOtherActiveCheckins :=
      checkins.any (fun c => c.id == id && c.status == Status.checkedIn)
    let issuedIDs :=
      if !hasOtherActiveCheckins then
        mutateFirst (fun t => t.digitalId == id)
          (fun t => { t with checkedIn := some false }) s.issuedIDs
      else s.issuedIDs
    { s with issuedIDs := issuedIDs, checkins := checkins }

/-! ## Strings -/

/-- White space and line terminators of ECMAScript, the characters
`String.prototype.trim` strips. -/
def isJsWhiteSpace (c : Char) : Bool :=
  let n := c.toNat
  n == 0x09 || n == 0x0A || n == 0x0B || n == 0x0C || n == 0x0D || n == 0x20 ||
  n == 0xA0 || n == 0x1680 || (0x2000 ≤ n && n ≤ 0x200A) || n == 0x2028 ||
  n == 0x2029 || n == 0x202F || n == 0x205F || n == 0x3000 || n == 0xFEFF

/-- Embedding of `String.prototype.trim`: leading and trailing white space
removed. -/
def jsTrim (s : String) : String :=
  String.mk ((s.data.dropWhile isJsWhiteSpace).reverse.dropWhile isJsWhiteSpace).reverse

/-- Substring search on character lists: `q` occurs somewhere in `s`. -/
def includesChars : List Char → List Char → Bool
  | [], q => q.isEmpty
  | c :: s, q => q.isPrefixOf (c :: s) || includesChars s q

/-- Embedding of `String.prototype.includes`. -/
def jsIncludes (s q : String) : Bool := includesChars s.data q.data

/-! ## Numbers

`Math.random()` yields a binary64 value; the product `Math.random() * 90000`
is rounded to binary64 (nearest, ties to even).  Values are embedded as
rationals; overflow to infinity is outside the range used here. -/

/-- Nearest integer, ties to the even one. -/
def roundHalfEven (y : ℚ) : ℤ :=
  let f := ⌊y⌋
  if y - f < 1 / 2 then f
  else if 1 / 2 < y - f then f + 1
  else if f % 2 = 0 then f else f + 1

/-- The binary64 value nearest to `x` (53-bit significand, exponents from
-1022 up, subnormals below). -/
def roundBinary64 (x : ℚ) : ℚ :=
  let e := max (Int.log 2 |x|) (-1022)
  let ulp : ℚ := 2 ^ (e - 52)
  roundHalfEven (x / ulp) * ulp

/-- A non-negative finite binary64 value: `m * 2 ^ e` with a significand below
`2 ^ 53`. -/
def IsBinary64 (r : ℚ) : Prop :=
  ∃ m : ℕ, ∃ e : ℤ, m < 2 ^ 53 ∧ -1074 ≤ e ∧ e ≤ 971 ∧ r = m * 2 ^ e

/-- The number `Math.floor(Math.random() * 90000) + 10000`, for the value
`random` returned by `Math.random()`.  The sum of two integers of this size is
exact in binary64. -/
def digitalIdNumber (random : ℚ) : ℤ :=
  ⌊roundBinary64 (random * 90000)⌋ + 10000

/-- The string `'TID' + (Math.floor(Math.random() * 90000) + 10000)`. -/
def makeDigitalId (random : ℚ) : String :=
  "TID" ++ toString (digitalIdNumber random)

/-! ## Registration -/

/-- The values of the registration form controls at submission, before the
handler touches them, and the rows of the two dynamic lists. -/
structure RegForm where
  fullName : String
  email : String
  phone : String
  dob : String
  nationality : String
  entryPoint : String
  docType : String
  docNumber : String
  checkIn : String
  checkOut : String
  itinerary : List ItineraryItem
  emergencyContacts : List EmergencyContact
deriving DecidableEq, Repr

/-- What the `FileReader` delivers for a chosen photo file: `onload` with a data
URL, or `onerror`. -/
inductive FileRead where
  | loaded (dataUrl : String)
  | failed
deriving DecidableEq, Repr

/-- Embedding of `readFileAsBase64(file)`: resolves to `null` when there is no
file, to the data URL when the read succeeds, and rejects otherwise. -/
def readFileAsBase64 : Option FileRead → Except Unit (Option String)
  | none => .ok none
  | some (.loaded url) => .ok (some url)
  | some .failed => .error ()

/-- Embedding of the `regForm` submit handler.  `photoFile` is
`files[0]` of the photo control together with what reading it yields, and
`random` is the value of `Math.random()`. -/
def regFormSubmit (s : State) (form : RegForm) (photoFile : Option FileRead)
    (random : ℚ) : Outcome :=
  let fullName := jsTrim form.fullName
  let email := jsTrim form.email
  let phone := jsTrim form.phone
  let dob := form.dob
  let nationality := jsTrim form.nationality
  let entryPoint := form.entryPoint
  let docType := form.docType
  let docNumber := jsTrim form.docNumber
  let checkIn := form.checkIn
  let checkOut := form.checkOut
  if fullName == "" || email == "" || phone == "" || dob == "" || nationality == "" ||
      entryPoint == "" || docType == "" || docNumber == "" || checkIn == "" ||
      checkOut == "" then
    ⟨s, some Error.missingFields⟩
  else
    match (if photoFile.isSome then readFileAsBase64 photoFile else .ok none) with
    | .error _ => ⟨s, some Error.imageError⟩
    | .ok photoBase64 =>
      let digitalId := makeDigitalId random
      ⟨{ s with issuedIDs := s.issuedIDs ++ [{
            digitalId := digitalId
            fullName := fullName
            email := email
            phone := phone
            dob := dob
            nationality := nationality
            entryPoint := entryPoint
            docType := docType
            docNumber := docNumber
            checkIn := checkIn
            checkOut := checkOut
            itinerary := form.itinerary
            emergencyContacts := form.emergencyContacts
            photoBase64 := photoBase64
            revoked := false
            checkedIn := none }] }, none⟩

/-! ## Check-in, SOS, e-FIR -/

/-- The predicate `t.digitalId === id && !t.revoked` of the three look-ups. -/
def activeWithId (id : String) (t : Tourist) : Bool :=
  t.digitalId == id && !t.revoked

/-- Body of the `checkinForm` submit handler from the look-up on, for the
values `id` and `location` it has read; `now` is `new Date().toLocaleString()`. -/
def checkIn (s : State) (id location now : String) : Outcome :=
  match s.issuedIDs.find? (activeWithId id) with
  | none => ⟨s, some Error.invalidId⟩
  | some tourist =>
    let checkins := s.checkins ++ [{
      name := tourist.fullName
      id := id
      location := location
      time := now
      status := Status.checkedIn }]
    let issuedIDs := mutateFirst (activeWithId id)
      (fun t => { t with checkedIn := some true }) s.issuedIDs
    ⟨{ s with issuedIDs := issuedIDs, checkins := checkins }, none⟩

/-- Embedding of the `checkinForm` submit handler: both controls are read with
`.value.trim()`. -/
def checkinFormSubmit (s : State) (checkinId checkinLocation now : String) : Outcome :=
  checkIn s (jsTrim checkinId) (jsTrim checkinLocation) now

/-- Body of the `sosBtn` click handler for the identifier it has read: a message
only, no array is touched. -/
def triggerSOS (s : State) (id : String) : Outcome :=
  match s.issuedIDs.find? (activeWithId id) with
  | none => ⟨s, some Error.invalidId⟩
  | some _ => ⟨s, none⟩

/-- Embedding of the `sosBtn` click handler. -/
def sosBtnClick (s : State) (sosId : String) : Outcome :=
  triggerSOS s (jsTrim sosId)

/-- Body of the `firForm` submit handler from the look-up on, for the values it
has read; `now` is `new Date().toLocaleString()`. -/
def fileReport (s : State) (id type desc location date now : String) : Outcome :=
  match s.issuedIDs.find? (activeWithId id) with
  | none => ⟨s, some Error.invalidId⟩
  | some tourist =>
    ⟨{ s with firReports := s.firReports ++ [{
          id := id
          name := tourist.fullName
          type := type
          desc := desc
          location := location
          date := date
          reportTime := now }] }, none⟩

/-- Embedding of the `firForm` submit handler: identifier, description and
location are read with `.value.trim()`, type and date as they are. -/
def firFormSubmit (s : State) (firId firType firDesc firLocation firDate now : String) :
    Outcome :=
  fileReport s (jsTrim firId) firType (jsTrim firDesc) (jsTrim firLocation) firDate now

/-! ## Search -/

/-- The filter callback of `renderCheckins`.  A JavaScript string is truthy
when it is not empty, so `c.name && ...` is false for an empty name. -/
def checkinShown (toLowerCase : String → String) (q : String) (c : Checkin) : Bool :=
  (c.name != "" && jsIncludes (toLowerCase c.name) q) ||
  (c.id != "" && jsIncludes (toLowerCase c.id) q) ||
  (c.location != "" && jsIncludes (toLowerCase c.location) q)

/-- Embedding of `renderCheckins(filter)`: the rows it renders, in rendering
order.  `toLowerCase` is the host's `String.prototype.toLowerCase`. -/
def renderCheckins (toLowerCase : String → String) (checkins : List Checkin)
    (filter : String) : List Checkin :=
  let q := toLowerCase filter
  (checkins.filter (checkinShown toLowerCase q)).reverse

/-! ## Sequences of user actions -/

/-- The user actions that reach the arrays. -/
inductive Action where
  | register (form : RegForm) (photoFile : Option FileRead) (random : ℚ)
  | checkIn (checkinId checkinLocation now : String)
  | checkOut (id time : String)
  | fileReport (firId firType firDesc firLocation firDate now : String)
  | sos (sosId : String)
  | search (filter : String)

/-- One action run to completion. -/
def step (s : State) : Action → Outcome
  | .register form photoFile random => regFormSubmit s form photoFile random
  | .checkIn checkinId checkinLocation now => checkinFormSubmit s checkinId checkinLocation now
  | .checkOut id time => ⟨checkout s id time, none⟩
  | .fileReport firId firType firDesc firLocation firDate now =>
    firFormSubmit s firId firType firDesc firLocation firDate now
  | .sos sosId => sosBtnClick s sosId
  | .search _ => ⟨s, none⟩

/-- The arrays after a sequence of actions. -/
def run (s : State) : List Action → State
  | [] => s
  | a :: rest => run (step s a).state rest

/-- Number of registrations in the sequence that end with the success message. -/
def successfulRegistrations (s : State) : List Action → Nat
  | [] => 0
  | a :: rest =>
    (match a with
      | .register form photoFile random =>
        if (regFormSubmit s form photoFile random).error = none then 1 else 0
      | _ => 0) + successfulRegistrations (step s a).state rest

/-! ## Identifiers in the arrays -/

/-- No registry record has an empty `digitalId` and no ledger row an empty `id`. -/
def IdsNonEmpty (s : State) : Prop :=
  (∀ t ∈ s.issuedIDs, t.digitalId ≠ "") ∧ (∀ c ∈ s.checkins, c.id ≠ "")

/-! ## The search criterion of the specification -/

/-- The search criterion in the words of the specification: the lower-cased
name, id or location contains the lower-cased query as a substring. -/
def searchMatches (toLowerCase : String → String) (query : String) (c : Checkin) : Prop :=
  (toLowerCase query).data <:+: (toLowerCase c.name).data ∨
  (toLowerCase query).data <:+: (toLowerCase c.id).data ∨
  (toLowerCase query).data <:+: (toLowerCase c.location).data

instance searchMatchesDecidable (toLowerCase : String → String) (query : String) :
    DecidablePred (searchMatches toLowerCase query) := fun c => by
  unfold searchMatches
  infer_instance

/-- Lower-casing of the letters A to Z; `toLowerCase` agrees with it on ASCII
strings. -/
def asciiLower (s : String) : String := String.mk (s.data.map Char.toLower)

/-! ## Blank fields -/

/-- A text control is blank when its value holds nothing but white space. -/
def isBlank (s : String) : Bool := s.data.all isJsWhiteSpace

/-- Some required field of the registration form is blank: a text control
(full name, e-mail, phone, nationality, document number) holding nothing but
white space, or one of the controls the handler reads as they are (date of
birth, entry point, document type, check-in date, check-out date) without a
value. -/
def RegForm.hasBlankField (form : RegForm) : Bool :=
  isBlank form.fullName || isBlank form.email || isBlank form.phone ||
  form.dob == "" || isBlank form.nationality || form.entryPoint == "" ||
  form.docType == "" || isBlank form.docNumber || form.checkIn == "" ||
  form.checkOut == ""

/-! ## Sample data -/

/-- A registration form left empty. -/
def emptyForm : RegForm :=
  { fullName := "", email := "", phone := "", dob := "", nationality := "",
    entryPoint := "", docType := "", docNumber := "", checkIn := "", checkOut := "",
    itinerary := [], emergencyContacts := [] }

/-- The registration of the specification's example, with white space typed
around the name. -/
def ashaForm : RegForm :=
  { fullName := " Asha Rao "
    email := "a@x.com"
    phone := "1"
    dob := "1990-01-01"
    nationality := "IN"
    entryPoint := "DEL"
    docType := "Passport"
    docNumber := "P1"
    checkIn := "2024-01-01"
    checkOut := "2024-01-10"
    itinerary := []
    emergencyContacts := [] }

/-- A registered tourist, as the registration handler stores her. -/
def asha : Tourist :=
  { digitalId := "TID55000"
    fullName := "Asha Rao"
    email := "a@x.com"
    phone := "1"
    dob := "1990-01-01"
    nationality := "IN"
    entryPoint := "DEL"
    docType := "Passport"
    docNumber := "P1"
    checkIn := "2024-01-01"
    checkOut := "2024-01-10"
    itinerary := []
    emergencyContacts := []
    photoBase64 := none
    revoked := false
    checkedIn := none }

/-- A check-in row of `asha` at Delhi. -/
def ashaAt (time : String) (status : Status) : Checkin :=
  { name := "Asha Rao", id := "TID55000", location := "Delhi", time := time, status := status }

/-- The arrays after `asha` checked in once. -/
def onceCheckedIn : State :=
  { issuedIDs := [{ asha with checkedIn := some true }]
    firReports := []
    checkins := [ashaAt "1/1/2024, 10:00:00 AM" Status.checkedIn] }

/-- The arrays after `asha` checked in twice within the same second: the two
rows carry the same identifier and the same `toLocaleString()` time. -/
def twiceCheckedIn : State :=
  { issuedIDs := [{ asha with checkedIn := some true }]
    firReports := []
    checkins := [ashaAt "1/1/2024, 10:00:00 AM" Status.checkedIn,
      ashaAt "1/1/2024, 10:00:00 AM" Status.checkedIn] }

/-- The registration of `ashaForm` with `Math.random()` returning one half,
followed by a check-in at Delhi. -/
def sampleActions : List Action :=
  [Action.register ashaForm none (1 / 2),
   Action.checkIn "TID55000" "Delhi" "1/1/2024, 10:00:00 AM"]

/-- The arrays after `asha` checked in once and checked out again. -/
def onceCheckedOut : State :=
  { issuedIDs := [{ asha with checkedIn := some false }]
    firReports := []
    checkins := [ashaAt "1/1/2024, 10:00:00 AM" Status.checkedOut] }

/-- A check-in row of `asha` at Agra, a day later. -/
def agraRow : Checkin :=
  { name := "Asha Rao", id := "TID55000", location := "Agra",
    time := "1/2/2024, 9:00:00 AM", status := Status.checkedIn }

/-- The registration of `ashaForm` with `Math.random()` returning one half,
followed by a check-in at Delhi and one at Agra. -/
def twoCityActions : List Action :=
  [Action.register ashaForm none (1 / 2),
   Action.checkIn "TID55000" "Delhi" "1/1/2024, 10:00:00 AM",
   Action.checkIn "TID55000" "Agra" "1/2/2024, 9:00:00 AM"]

/-- The arrays after `twoCityActions`. -/
def twoCities : State :=
  { issuedIDs := [{ asha with checkedIn := some true }]
    firReports := []
    checkins := [ashaAt "1/1/2024, 10:00:00 AM" Status.checkedIn, agraRow] }

/-! ## Relations between ledgers and between registry and ledger -/

/-- Row `c2` is row `c1` later in its life: same id, name, location and time,
and checked-out if `c1` was. -/
def RowKept (c1 c2 : Checkin) : Prop :=
  c2.id = c1.id ∧ c2.name = c1.name ∧ c2.location = c1.location ∧ c2.time = c1.time ∧
  (c1.status = Status.checkedOut → c2.status = Status.checkedOut)

/-- Ledger `l2` keeps every row of ledger `l1` at its position. -/
def LedgerKept (l1 l2 : List Checkin) : Prop :=
  l1.length ≤ l2.length ∧ ∀ (i : Nat) (c : Checkin), l1[i]? = some c →
    ∃ c2, l2[i]? = some c2 ∧ RowKept c c2

/-- The `checkedIn` flag of the first registry record with a given identifier
is `true` exactly when the ledger holds a checked-in row with that identifier. -/
def FlagsAgree (s : State) : Prop :=
  ∀ (id : String) (t : Tourist), s.issuedIDs.find? (fun t => t.digitalId == id) = some t →
    (t.checkedIn = some true ↔
      ∃ c ∈ s.checkins, c.id = id ∧ c.status = Status.checkedIn)

/-- What holds of the arrays along every run: no record is revoked, every
ledger row carries the identifier of a registry record, and the flags agree
with the ledger. -/
def Consistent (s : State) : Prop :=
  (∀ t ∈ s.issuedIDs, t.revoked = false) ∧
  (∀ c ∈ s.checkins, c.id ∈ s.issuedIDs.map (fun t => t.digitalId)) ∧
  FlagsAgree s

/-! ## Lemmas on the array helpers -/

theorem mutateFirst_length {α : Type} (p : α → Bool) (f : α → α) (l : List α) :
    (mutateFirst p f l).length = l.length := by
  induction l with
  | nil => rfl
  | cons x xs ih =>
    by_cases h : p x = true
    · simp [mutateFirst, h]
    · simp [mutateFirst, h, ih]

theorem mutateFirst_of_forall_false {α : Type} (p : α → Bool) (f : α → α) (l : List α)
    (h : ∀ x ∈ l, p x = false) : mutateFirst p f l = l := by
  induction l with
  | nil => rfl
  | cons x xs ih =>
    have hx : p x = false := h x (List.mem_cons_self x xs)
    have hxs : ∀ y ∈ xs, p y = false := fun y hy => h y (List.mem_cons_of_mem x hy)
    simp [mutateFirst, hx, ih hxs]

/-- An array holding an element that satisfies `p` splits around the first
such element, which is the one `find` returns and `mutateFirst` updates. -/
theorem exists_first_split {α : Type} (p : α → Bool) (f : α → α) (l : List α)
    (h : ∃ x ∈ l, p x = true) :
    ∃ pre c post, l = pre ++ c :: post ∧ (∀ x ∈ pre, p x = false) ∧ p c = true ∧
      l.find? p = some c ∧ mutateFirst p f l = pre ++ f c :: post := by
  induction l with
  | nil =>
    obtain ⟨x, hx, _⟩ := h
    cases hx
  | cons y ys ih =>
    by_cases hy : p y = true
    · refine ⟨[], y, ys, rfl, ?_, hy, ?_, ?_⟩
      · intro x hx
        cases hx
      · simp [List.find?, hy]
      · simp [mutateFirst, hy]
    · have hy0 : p y = false := by simpa using hy
      have h2 : ∃ x ∈ ys, p x = true := by
        obtain ⟨x, hx, hpx⟩ := h
        rcases List.mem_cons.mp hx with rfl | hmem
        · exact absurd hpx hy
        · exact ⟨x, hmem, hpx⟩
      obtain ⟨pre, c, post, hl, hpre, hc, hfind, hmut⟩ := ih h2
      refine ⟨y :: pre, c, post, ?_, ?_, hc, ?_, ?_⟩
      · simp [hl]
      · intro x hx
        rcases List.mem_cons.mp hx with rfl | hmem
        · exact hy0
        · exact hpre x hmem
      · simp [List.find?, hy0, hfind]
      · simp [mutateFirst, hy0, hmut]

theorem find?_eq_none_of_forall_false {α : Type} (p : α → Bool) (l : List α)
    (h : ∀ x ∈ l, p x = false) : l.find? p = none := by
  induction l with
  | nil => rfl
  | cons x xs ih =>
    have hx : p x = false := h x (List.mem_cons_self x xs)
    have hxs : ∀ y ∈ xs, p y = false := fun y hy => h y (List.mem_cons_of_mem x hy)
    simp [List.find?, hx, ih hxs]

theorem checkoutMatch_iff (id time : String) (c : Checkin) :
    checkoutMatch id time c = true ↔
      c.id = id ∧ c.time = time ∧ c.status = Status.checkedIn := by
  simp [checkoutMatch, and_assoc]

theorem checkoutMatch_checkedOut (id time : String) (c : Checkin) :
    checkoutMatch id time { c with status := Status.checkedOut } = false := by
  simp [checkoutMatch]

/-- The ledger after `checkout`, whatever happens to the registry. -/
theorem checkout_checkins (s : State) (id time : String) :
    (checkout s id time).checkins =
      mutateFirst (checkoutMatch id time)
        (fun c => { c with status := Status.checkedOut }) s.checkins := by
  unfold checkout
  cases hfind : s.checkins.find? (checkoutMatch id time) with
  | none =>
    have hall : ∀ x ∈ s.checkins, checkoutMatch id time x = false := by
      intro x hx
      by_contra hcon
      have hx1 : checkoutMatch id time x = true := by simpa using hcon
      have := List.find?_eq_none.mp hfind x hx
      exact this hx1
    simp [mutateFirst_of_forall_false _ _ _ hall]
  | some c => simp

theorem checkout_of_no_match (s : State) (id time : String)
    (h : ∀ x ∈ s.checkins, checkoutMatch id time x = false) : checkout s id time = s := by
  unfold checkout
  rw [find?_eq_none_of_forall_false _ _ h]

/-! ## Check-out: what one call does, and what a second call does -/

/-- C1 (as stated, refuted): on a ledger holding two checked-in rows with the
same identifier and time, the second `checkout` with the same arguments flips
the second row, so two calls do not leave the state of one call. -/
theorem checkout_twice_ne_once_twiceCheckedIn :
    checkout (checkout twiceCheckedIn "TID55000" "1/1/2024, 10:00:00 AM")
        "TID55000" "1/1/2024, 10:00:00 AM" ≠
      checkout twiceCheckedIn "TID55000" "1/1/2024, 10:00:00 AM" := by
  decide

/-- C1 (amended): when at most one row of the ledger has the given identifier,
the given time and status checked-in, `checkout` is idempotent: the second call
with the same arguments returns the state the first call left (no row and no
registry flag changes), and the first call either leaves the ledger as it was or
turns exactly one checked-in row to checked-out. -/
theorem checkout_idempotent_of_unique (s : State) (id time : String)
    (h : s.checkins.countP (checkoutMatch id time) ≤ 1) :
    checkout (checkout s id time) id time = checkout s id time ∧
    ((checkout s id time).checkins = s.checkins ∨
      ∃ pre c post, s.checkins = pre ++ c :: post ∧ c.status = Status.checkedIn ∧
        (checkout s id time).checkins =
          pre ++ { name := c.name, id := c.id, location := c.location, time := c.time,
                   status := Status.checkedOut } :: post) := by
  by_cases hex : ∃ x ∈ s.checkins, checkoutMatch id time x = true
  · obtain ⟨pre, c, post, hl, hpre, hc, _, hmut⟩ :=
      exists_first_split (checkoutMatch id time)
        (fun c => { c with status := Status.checkedOut }) s.checkins hex
    refine ⟨?_, Or.inr ⟨pre, c, post, hl, ((checkoutMatch_iff id time c).mp hc).2.2, ?_⟩⟩
    swap
    · rw [checkout_checkins, hmut]
    apply checkout_of_no_match
    rw [checkout_checkins, hmut]
    have hpost : ∀ x ∈ post, checkoutMatch id time x = false := by
      rw [hl] at h
      simp only [List.countP_append, List.countP_cons, hc, if_true] at h
      have h0 : post.countP (checkoutMatch id time) = 0 := by omega
      intro x hx
      have := List.countP_eq_zero.mp h0 x hx
      simpa using this
    intro x hx
    rcases List.mem_append.mp hx with hx1 | hx2
    · exact hpre x hx1
    · rcases List.mem_cons.mp hx2 with rfl | hx3
      · exact checkoutMatch_checkedOut id time c
      · exact hpost x hx3
  · have hall : ∀ x ∈ s.checkins, checkoutMatch id time x = false := by
      intro x hx
      by_contra hcon
      exact hex ⟨x, hx, by simpa using hcon⟩
    rw [checkout_of_no_match s id time hall]
    exact ⟨checkout_of_no_match s id time hall, Or.inl rfl⟩

/-- Witness for C1 (amended), on a ledger with a single checked-in row. -/
theorem checkout_idempotent_of_unique_witness :
    onceCheckedIn.checkins.countP (checkoutMatch "TID55000" "1/1/2024, 10:00:00 AM") ≤ 1 ∧
      checkout (checkout onceCheckedIn "TID55000" "1/1/2024, 10:00:00 AM")
          "TID55000" "1/1/2024, 10:00:00 AM" =
        checkout onceCheckedIn "TID55000" "1/1/2024, 10:00:00 AM" :=
  ⟨by decide,
   (checkout_idempotent_of_unique onceCheckedIn "TID55000" "1/1/2024, 10:00:00 AM"
      (by decide)).1⟩

/-- C5: when the ledger holds a row with the given identifier and time and
status checked-in, `checkout` turns the status of the first such row to
checked-out, keeps every other row and every other field of that row, keeps the
length of the ledger, and lowers the checked-in count of `updateStats` by one. -/
theorem checkout_flips_first_match (s : State) (id time : String)
    (h : ∃ c ∈ s.checkins, c.id = id ∧ c.time = time ∧ c.status = Status.checkedIn) :
    ∃ pre c post,
      s.checkins = pre ++ c :: post ∧
      (∀ x ∈ pre, ¬ (x.id = id ∧ x.time = time ∧ x.status = Status.checkedIn)) ∧
      (c.id = id ∧ c.time = time ∧ c.status = Status.checkedIn) ∧
      (checkout s id time).checkins =
        pre ++ { name := c.name, id := c.id, location := c.location, time := c.time,
                 status := Status.checkedOut } :: post ∧
      (checkout s id time).checkins.length = s.checkins.length ∧
      (updateStats (checkout s id time)).checkedIn + 1 = (updateStats s).checkedIn := by
  have hex : ∃ x ∈ s.checkins, checkoutMatch id time x = true := by
    obtain ⟨c, hc, hm⟩ := h
    exact ⟨c, hc, (checkoutMatch_iff id time c).mpr hm⟩
  obtain ⟨pre, c, post, hl, hpre, hc, _, hmut⟩ :=
    exists_first_split (checkoutMatch id time)
      (fun c => { c with status := Status.checkedOut }) s.checkins hex
  have hcm := (checkoutMatch_iff id time c).mp hc
  refine ⟨pre, c, post, hl, ?_, hcm, ?_, ?_, ?_⟩
  · intro x hx hcon
    have := hpre x hx
    rw [(checkoutMatch_iff id time x).mpr hcon] at this
    cases this
  · rw [checkout_checkins, hmut]
  · rw [checkout_checkins, mutateFirst_length]
  · have hout : (checkout s id time).checkins =
        pre ++ { c with status := Status.checkedOut } :: post := by
      rw [checkout_checkins, hmut]
    simp only [updateStats, hout]
    rw [hl]
    simp [List.filter_append, List.filter_cons, hcm.2.2]
    omega

/-- Witness for C5, on a ledger with a single checked-in row. -/
theorem checkout_flips_first_match_witness :
    ∃ pre c post,
      onceCheckedIn.checkins = pre ++ c :: post ∧
      (∀ x ∈ pre, ¬ (x.id = "TID55000" ∧ x.time = "1/1/2024, 10:00:00 AM" ∧
        x.status = Status.checkedIn)) ∧
      (c.id = "TID55000" ∧ c.time = "1/1/2024, 10:00:00 AM" ∧
        c.status = Status.checkedIn) ∧
      (checkout onceCheckedIn "TID55000" "1/1/2024, 10:00:00 AM").checkins =
        pre ++ { name := c.name, id := c.id, location := c.location, time := c.time,
                 status := Status.checkedOut } :: post ∧
      (checkout onceCheckedIn "TID55000" "1/1/2024, 10:00:00 AM").checkins.length =
        onceCheckedIn.checkins.length ∧
      (updateStats (checkout onceCheckedIn "TID55000" "1/1/2024, 10:00:00 AM")).checkedIn + 1 =
        (updateStats onceCheckedIn).checkedIn :=
  checkout_flips_first_match onceCheckedIn "TID55000" "1/1/2024, 10:00:00 AM"
    ⟨ashaAt "1/1/2024, 10:00:00 AM" Status.checkedIn, by decide, by decide, by decide, rfl⟩

/-! ## Registration -/

theorem String.mk_eq_empty_iff (l : List Char) : String.mk l = "" ↔ l = [] := by
  constructor
  · intro h
    have := congrArg String.data h
    simpa using this
  · rintro rfl
    rfl

theorem jsTrim_eq_empty_iff (s : String) : jsTrim s = "" ↔ isBlank s = true := by
  unfold jsTrim isBlank
  rw [String.mk_eq_empty_iff, List.reverse_eq_nil_iff, List.dropWhile_eq_nil_iff,
    List.all_eq_true]
  constructor
  · intro h
    have h1 : ∀ x ∈ List.dropWhile isJsWhiteSpace s.data, isJsWhiteSpace x = true := by
      intro x hx
      exact h x (List.mem_reverse.mpr hx)
    have h2 : List.dropWhile isJsWhiteSpace (List.dropWhile isJsWhiteSpace s.data) = [] :=
      List.dropWhile_eq_nil_iff.mpr h1
    rw [List.dropWhile_idempotent] at h2
    exact List.dropWhile_eq_nil_iff.mp h2
  · intro h
    have h2 : List.dropWhile isJsWhiteSpace s.data = [] := List.dropWhile_eq_nil_iff.mpr h
    intro x hx
    rw [h2] at hx
    simp at hx

theorem jsTrim_beq_empty (s : String) : (jsTrim s == "") = isBlank s := by
  cases hb : isBlank s with
  | true => simpa using (jsTrim_eq_empty_iff s).mpr hb
  | false =>
    have : ¬ jsTrim s = "" := fun h => by
      have := (jsTrim_eq_empty_iff s).mp h
      rw [hb] at this
      cases this
    simpa using this

/-- The test of the registration handler is the blank-field test. -/
theorem regFormSubmit_test (form : RegForm) :
    (jsTrim form.fullName == "" || jsTrim form.email == "" || jsTrim form.phone == "" ||
      form.dob == "" || jsTrim form.nationality == "" || form.entryPoint == "" ||
      form.docType == "" || jsTrim form.docNumber == "" || form.checkIn == "" ||
      form.checkOut == "") = form.hasBlankField := by
  simp only [jsTrim_beq_empty, RegForm.hasBlankField]

theorem regFormSubmit_of_blank (s : State) (form : RegForm) (photoFile : Option FileRead)
    (random : ℚ) (hb : form.hasBlankField = true) :
    regFormSubmit s form photoFile random = ⟨s, some Error.missingFields⟩ := by
  unfold regFormSubmit
  simp only [regFormSubmit_test, hb, if_true]

theorem regFormSubmit_of_failed_read (s : State) (form : RegForm) (random : ℚ)
    (hb : form.hasBlankField = false) :
    regFormSubmit s form (some FileRead.failed) random = ⟨s, some Error.imageError⟩ := by
  unfold regFormSubmit
  simp [regFormSubmit_test, hb, readFileAsBase64]

/-- The outcome of a registration that passes the test and whose photo, if
any, is read. -/
theorem regFormSubmit_of_valid (s : State) (form : RegForm) (photoFile : Option FileRead)
    (random : ℚ) (hb : form.hasBlankField = false) (hp : photoFile ≠ some FileRead.failed) :
    ∃ photoBase64, regFormSubmit s form photoFile random =
      ⟨{ s with issuedIDs := s.issuedIDs ++ [{
            digitalId := makeDigitalId random
            fullName := jsTrim form.fullName
            email := jsTrim form.email
            phone := jsTrim form.phone
            dob := form.dob
            nationality := jsTrim form.nationality
            entryPoint := form.entryPoint
            docType := form.docType
            docNumber := jsTrim form.docNumber
            checkIn := form.checkIn
            checkOut := form.checkOut
            itinerary := form.itinerary
            emergencyContacts := form.emergencyContacts
            photoBase64 := photoBase64
            revoked := false
            checkedIn := none }] }, none⟩ := by
  unfold regFormSubmit
  simp only [regFormSubmit_test, hb]
  cases photoFile with
  | none => exact ⟨none, by simp⟩
  | some f =>
    cases f with
    | loaded url => exact ⟨some url, by simp [readFileAsBase64]⟩
    | failed => exact absurd rfl hp

/-- C2 (as stated, refuted): a valid registration whose name was typed with
white space around it is stored with the name "Asha Rao", not with the
submitted string " Asha Rao ". -/
theorem regFormSubmit_ashaForm_fullName_not_exact :
    ashaForm.hasBlankField = false ∧
    (regFormSubmit State.init ashaForm none (1 / 2)).error = none ∧
    (regFormSubmit State.init ashaForm none (1 / 2)).state.issuedIDs.map
      (fun t => t.fullName) = ["Asha Rao"] ∧
    ashaForm.fullName ≠ "Asha Rao" := by
  refine ⟨by decide, by decide, by decide, by decide⟩

/-- C2 (amended): for every valid registration (no required field blank, photo
read if there is one) the record appended to the registry has `fullName`,
`email`, `phone`, `nationality` and `docNumber` equal to the submitted strings
with leading and trailing white space removed, and `dob`, `entryPoint`,
`docType`, `checkIn` and `checkOut` equal to the submitted strings exactly. -/
theorem regFormSubmit_stored_fields (s : State) (form : RegForm)
    (photoFile : Option FileRead) (random : ℚ)
    (hb : form.hasBlankField = false) (hp : photoFile ≠ some FileRead.failed) :
    ∃ t, (regFormSubmit s form photoFile random).state.issuedIDs = s.issuedIDs ++ [t] ∧
      t.fullName = jsTrim form.fullName ∧ t.email = jsTrim form.email ∧
      t.phone = jsTrim form.phone ∧ t.nationality = jsTrim form.nationality ∧
      t.docNumber = jsTrim form.docNumber ∧
      t.dob = form.dob ∧ t.entryPoint = form.entryPoint ∧ t.docType = form.docType ∧
      t.checkIn = form.checkIn ∧ t.checkOut = form.checkOut := by
  obtain ⟨photoBase64, hout⟩ := regFormSubmit_of_valid s form photoFile random hb hp
  rw [hout]
  exact ⟨_, rfl, rfl, rfl, rfl, rfl, rfl, rfl, rfl, rfl, rfl, rfl⟩

/-- Witness for C2 (amended), on the example registration. -/
theorem regFormSubmit_stored_fields_witness :
    ashaForm.hasBlankField = false ∧
    ∃ t, (regFormSubmit State.init ashaForm none (1 / 2)).state.issuedIDs =
        State.init.issuedIDs ++ [t] ∧
      t.fullName = jsTrim ashaForm.fullName ∧ t.email = jsTrim ashaForm.email ∧
      t.phone = jsTrim ashaForm.phone ∧ t.nationality = jsTrim ashaForm.nationality ∧
      t.docNumber = jsTrim ashaForm.docNumber ∧
      t.dob = ashaForm.dob ∧ t.entryPoint = ashaForm.entryPoint ∧
      t.docType = ashaForm.docType ∧
      t.checkIn = ashaForm.checkIn ∧ t.checkOut = ashaForm.checkOut :=
  ⟨by decide, regFormSubmit_stored_fields State.init ashaForm none (1 / 2) (by decide)
    (by decide)⟩

/-- C7: a submission with a blank required field fails with the missing-fields
error and leaves the registry, the ledger and the report log as they were; a
submission without blank required field whose photo read does not fail succeeds
and appends exactly one record, with `revoked = false`, to the registry, the
ledger and the report log staying as they were. -/
theorem regFormSubmit_validation (s : State) (form : RegForm)
    (photoFile : Option FileRead) (random : ℚ) :
    (form.hasBlankField = true →
      (regFormSubmit s form photoFile random).error = some Error.missingFields ∧
      (regFormSubmit s form photoFile random).state = s) ∧
    (form.hasBlankField = false → photoFile ≠ some FileRead.failed →
      (regFormSubmit s form photoFile random).error = none ∧
      (∃ t, (regFormSubmit s form photoFile random).state.issuedIDs = s.issuedIDs ++ [t] ∧
        t.revoked = false) ∧
      (regFormSubmit s form photoFile random).state.checkins = s.checkins ∧
      (regFormSubmit s form photoFile random).state.firReports = s.firReports) := by
  constructor
  · intro hb
    rw [regFormSubmit_of_blank s form photoFile random hb]
    exact ⟨rfl, rfl⟩
  · intro hb hp
    obtain ⟨photoBase64, hout⟩ := regFormSubmit_of_valid s form photoFile random hb hp
    rw [hout]
    exact ⟨rfl, ⟨_, rfl, rfl⟩, rfl, rfl⟩

/-- Witness for C7: the empty form on a ledger with a check-in is rejected and
the example registration is accepted. -/
theorem regFormSubmit_validation_witness :
    (emptyForm.hasBlankField = true ∧
      (regFormSubmit onceCheckedIn emptyForm none (1 / 2)).error = some Error.missingFields ∧
      (regFormSubmit onceCheckedIn emptyForm none (1 / 2)).state = onceCheckedIn) ∧
    (ashaForm.hasBlankField = false ∧
      (regFormSubmit onceCheckedIn ashaForm (some (FileRead.loaded "data:image/png;base64,AA=="))
        (1 / 2)).error = none ∧
      (∃ t, (regFormSubmit onceCheckedIn ashaForm
          (some (FileRead.loaded "data:image/png;base64,AA==")) (1 / 2)).state.issuedIDs =
          onceCheckedIn.issuedIDs ++ [t] ∧ t.revoked = false) ∧
      (regFormSubmit onceCheckedIn ashaForm (some (FileRead.loaded "data:image/png;base64,AA=="))
        (1 / 2)).state.checkins = onceCheckedIn.checkins ∧
      (regFormSubmit onceCheckedIn ashaForm (some (FileRead.loaded "data:image/png;base64,AA=="))
        (1 / 2)).state.firReports = onceCheckedIn.firReports) :=
  ⟨⟨by decide, (regFormSubmit_validation onceCheckedIn emptyForm none (1 / 2)).1 (by decide)⟩,
   ⟨by decide, (regFormSubmit_validation onceCheckedIn ashaForm
      (some (FileRead.loaded "data:image/png;base64,AA==")) (1 / 2)).2 (by decide) (by decide)⟩⟩

/-! ## Check-in and e-FIR -/

theorem activeWithId_iff (id : String) (t : Tourist) :
    activeWithId id t = true ↔ t.digitalId = id ∧ t.revoked = false := by
  simp [activeWithId]

theorem no_active_iff (s : State) (id : String) :
    (∀ x ∈ s.issuedIDs, activeWithId id x = false) ↔
      ¬ ∃ t ∈ s.issuedIDs, t.digitalId = id ∧ t.revoked = false := by
  constructor
  · rintro h ⟨t, ht, hact⟩
    have := h t ht
    rw [(activeWithId_iff id t).mpr hact] at this
    cases this
  · intro h x hx
    by_contra hcon
    have hx1 : activeWithId id x = true := by simpa using hcon
    exact h ⟨x, hx, (activeWithId_iff id x).mp hx1⟩

theorem checkIn_of_no_active (s : State) (id location now : String)
    (h : ∀ x ∈ s.issuedIDs, activeWithId id x = false) :
    checkIn s id location now = ⟨s, some Error.invalidId⟩ := by
  unfold checkIn
  rw [find?_eq_none_of_forall_false _ _ h]

theorem checkIn_of_first_active (s : State) (id location now : String) (t : Tourist)
    (h : s.issuedIDs.find? (activeWithId id) = some t) :
    checkIn s id location now =
      ⟨{ s with
          issuedIDs := mutateFirst (activeWithId id)
            (fun t => { t with checkedIn := some true }) s.issuedIDs
          checkins := s.checkins ++ [{
            name := t.fullName, id := id, location := location, time := now,
            status := Status.checkedIn }] }, none⟩ := by
  unfold checkIn
  rw [h]

theorem fileReport_of_no_active (s : State) (id type desc location date now : String)
    (h : ∀ x ∈ s.issuedIDs, activeWithId id x = false) :
    fileReport s id type desc location date now = ⟨s, some Error.invalidId⟩ := by
  unfold fileReport
  rw [find?_eq_none_of_forall_false _ _ h]

theorem fileReport_of_first_active (s : State) (id type desc location date now : String)
    (t : Tourist) (h : s.issuedIDs.find? (activeWithId id) = some t) :
    fileReport s id type desc location date now =
      ⟨{ s with firReports := s.firReports ++ [{
            id := id, name := t.fullName, type := type, desc := desc,
            location := location, date := date, reportTime := now }] }, none⟩ := by
  unfold fileReport
  rw [h]

/-- From the look-up on, the check-in handler fails with the
invalid-or-revoked-ID error exactly when the registry holds no record with the
identifier it has read and `revoked = false`, and then changes nothing. -/
theorem checkIn_body_fails_iff (s : State) (id location now : String) :
    ((checkIn s id location now).error = some Error.invalidId ↔
      ¬ ∃ t ∈ s.issuedIDs, t.digitalId = id ∧ t.revoked = false) ∧
    ((checkIn s id location now).error ≠ none → (checkIn s id location now).state = s) := by
  by_cases hex : ∃ x ∈ s.issuedIDs, activeWithId id x = true
  · obtain ⟨pre, t, post, _, _, _, hfind, _⟩ :=
      exists_first_split (activeWithId id) (fun t => t) s.issuedIDs hex
    rw [checkIn_of_first_active s id location now t hfind]
    refine ⟨⟨fun h => (by cases h), fun h => ?_⟩, fun h => absurd rfl h⟩
    obtain ⟨x, hx, hact⟩ := hex
    exact absurd ⟨x, hx, (activeWithId_iff id x).mp hact⟩ h
  · have hall : ∀ x ∈ s.issuedIDs, activeWithId id x = false := by
      intro x hx
      by_contra hcon
      exact hex ⟨x, hx, by simpa using hcon⟩
    rw [checkIn_of_no_active s id location now hall]
    exact ⟨⟨fun _ => (no_active_iff s id).mp hall, fun _ => rfl⟩, fun _ => rfl⟩

/-- From the look-up on, the check-in handler appends one checked-in row built
from the identifier and location it has read and from the first record that has
this identifier and is not revoked. -/
theorem checkIn_body_appends (s : State) (id location now : String)
    (h : ∃ t ∈ s.issuedIDs, t.digitalId = id ∧ t.revoked = false) :
    ∃ pre t post,
      s.issuedIDs = pre ++ t :: post ∧
      (∀ x ∈ pre, ¬ (x.digitalId = id ∧ x.revoked = false)) ∧
      (t.digitalId = id ∧ t.revoked = false) ∧
      (checkIn s id location now).error = none ∧
      (checkIn s id location now).state.checkins =
        s.checkins ++ [{ name := t.fullName, id := id, location := location, time := now,
                         status := Status.checkedIn }] := by
  have hex : ∃ x ∈ s.issuedIDs, activeWithId id x = true := by
    obtain ⟨t, ht, hact⟩ := h
    exact ⟨t, ht, (activeWithId_iff id t).mpr hact⟩
  obtain ⟨pre, t, post, hl, hpre, ht, hfind, _⟩ :=
    exists_first_split (activeWithId id) (fun t => t) s.issuedIDs hex
  refine ⟨pre, t, post, hl, ?_, (activeWithId_iff id t).mp ht, ?_, ?_⟩
  · intro x hx hcon
    have := hpre x hx
    rw [(activeWithId_iff id x).mpr hcon] at this
    cases this
  · rw [checkIn_of_first_active s id location now t hfind]
  · rw [checkIn_of_first_active s id location now t hfind]

/-- From the look-up on, the e-FIR handler fails exactly when the registry
holds no record with the identifier it has read and `revoked = false`, and then
changes nothing; otherwise it appends one report built from the values it has
read and from the first such record. -/
theorem fileReport_body_spec (s : State) (id type desc location date now : String) :
    ((fileReport s id type desc location date now).error = some Error.invalidId ↔
      ¬ ∃ t ∈ s.issuedIDs, t.digitalId = id ∧ t.revoked = false) ∧
    ((¬ ∃ t ∈ s.issuedIDs, t.digitalId = id ∧ t.revoked = false) →
      (fileReport s id type desc location date now).state = s) ∧
    ((∃ t ∈ s.issuedIDs, t.digitalId = id ∧ t.revoked = false) →
      ∃ pre t post,
        s.issuedIDs = pre ++ t :: post ∧
        (∀ x ∈ pre, ¬ (x.digitalId = id ∧ x.revoked = false)) ∧
        (t.digitalId = id ∧ t.revoked = false) ∧
        (fileReport s id type desc location date now).error = none ∧
        (fileReport s id type desc location date now).state.firReports =
          s.firReports ++ [{ id := id, name := t.fullName, type := type, desc := desc,
                             location := location, date := date, reportTime := now }] ∧
        (fileReport s id type desc location date now).state.issuedIDs = s.issuedIDs ∧
        (fileReport s id type desc location date now).state.checkins = s.checkins) := by
  by_cases hex : ∃ x ∈ s.issuedIDs, activeWithId id x = true
  · obtain ⟨pre, t, post, hl, hpre, ht, hfind, _⟩ :=
      exists_first_split (activeWithId id) (fun t => t) s.issuedIDs hex
    have hact : ∃ t ∈ s.issuedIDs, t.digitalId = id ∧ t.revoked = false := by
      obtain ⟨x, hx, hx1⟩ := hex
      exact ⟨x, hx, (activeWithId_iff id x).mp hx1⟩
    rw [fileReport_of_first_active s id type desc location date now t hfind]
    refine ⟨⟨fun h => (by cases h), fun h => absurd hact h⟩, fun h => absurd hact h, fun _ => ?_⟩
    refine ⟨pre, t, post, hl, ?_, (activeWithId_iff id t).mp ht, rfl, rfl, rfl, rfl⟩
    intro x hx hcon
    have := hpre x hx
    rw [(activeWithId_iff id x).mpr hcon] at this
    cases this
  · have hall : ∀ x ∈ s.issuedIDs, activeWithId id x = false := by
      intro x hx
      by_contra hcon
      exact hex ⟨x, hx, by simpa using hcon⟩
    have hno := (no_active_iff s id).mp hall
    rw [fileReport_of_no_active s id type desc location date now hall]
    exact ⟨⟨fun _ => hno, fun _ => rfl⟩, fun _ => rfl, fun h => absurd h hno⟩

/-! ## Statistics along a run -/

theorem checkout_issuedIDs_length (s : State) (id time : String) :
    (checkout s id time).issuedIDs.length = s.issuedIDs.length := by
  unfold checkout
  cases s.checkins.find? (checkoutMatch id time) with
  | none => rfl
  | some c =>
    simp only
    split
    · exact mutateFirst_length _ _ _
    · rfl

theorem checkIn_issuedIDs_length (s : State) (id location now : String) :
    (checkIn s id location now).state.issuedIDs.length = s.issuedIDs.length := by
  unfold checkIn
  cases s.issuedIDs.find? (activeWithId id) with
  | none => rfl
  | some t => exact mutateFirst_length _ _ _

theorem fileReport_issuedIDs (s : State) (id type desc location date now : String) :
    (fileReport s id type desc location date now).state.issuedIDs = s.issuedIDs := by
  unfold fileReport
  cases s.issuedIDs.find? (activeWithId id) with
  | none => rfl
  | some t => rfl

theorem triggerSOS_state (s : State) (id : String) : (triggerSOS s id).state = s := by
  unfold triggerSOS
  cases s.issuedIDs.find? (activeWithId id) with
  | none => rfl
  | some t => rfl

theorem regFormSubmit_issuedIDs_length (s : State) (form : RegForm)
    (photoFile : Option FileRead) (random : ℚ) :
    (regFormSubmit s form photoFile random).state.issuedIDs.length =
      s.issuedIDs.length +
        (if (regFormSubmit s form photoFile random).error = none then 1 else 0) := by
  cases hb : form.hasBlankField with
  | true =>
    rw [regFormSubmit_of_blank s form photoFile random hb]
    simp
  | false =>
    by_cases hp : photoFile = some FileRead.failed
    · subst hp
      rw [regFormSubmit_of_failed_read s form random hb]
      simp
    · obtain ⟨photoBase64, hout⟩ := regFormSubmit_of_valid s form photoFile random hb hp
      rw [hout]
      simp

/-- One action adds one registry record when it is a registration that
succeeds, and none otherwise. -/
theorem step_issuedIDs_length (s : State) (a : Action) :
    (step s a).state.issuedIDs.length =
      s.issuedIDs.length + successfulRegistrations s [a] := by
  cases a with
  | register form photoFile random =>
    simp only [step, successfulRegistrations, Nat.add_zero]
    exact regFormSubmit_issuedIDs_length s form photoFile random
  | checkIn checkinId checkinLocation now =>
    simp only [step, successfulRegistrations, Nat.add_zero, checkinFormSubmit]
    exact checkIn_issuedIDs_length s _ _ now
  | checkOut id time =>
    simp only [step, successfulRegistrations, Nat.add_zero]
    exact checkout_issuedIDs_length s id time
  | fileReport firId firType firDesc firLocation firDate now =>
    simp only [step, successfulRegistrations, Nat.add_zero, firFormSubmit]
    rw [fileReport_issuedIDs]
  | sos sosId =>
    simp only [step, successfulRegistrations, Nat.add_zero, sosBtnClick]
    rw [triggerSOS_state]
  | search filter => rfl

theorem run_issuedIDs_length (acts : List Action) :
    ∀ s : State, (run s acts).issuedIDs.length =
      s.issuedIDs.length + successfulRegistrations s acts := by
  induction acts with
  | nil => intro s; rfl
  | cons a rest ih =>
    intro s
    have h1 := step_issuedIDs_length s a
    have h2 := ih (step s a).state
    simp only [successfulRegistrations, Nat.add_zero] at h1
    simp only [run, successfulRegistrations]
    omega

/-- C10: after every finite sequence of actions run from the empty initial
state, the issued count of `updateStats` is the number of registrations of the
sequence that succeeded, and its checked-in count is the number of ledger rows
whose status is checked-in at that moment. -/
theorem stats_after_run (acts : List Action) :
    (updateStats (run State.init acts)).totalIDs =
      successfulRegistrations State.init acts ∧
    (updateStats (run State.init acts)).checkedIn =
      (run State.init acts).checkins.countP (fun c => decide (c.status = Status.checkedIn)) := by
  constructor
  · have h := run_issuedIDs_length acts State.init
    simpa [updateStats, State.init] using h
  · simp only [updateStats, List.countP_eq_length_filter]
    congr 2

/-! ## The generated identifier -/
theorem roundHalfEven_le (y : ℚ) : (roundHalfEven y : ℚ) ≤ y + 1 / 2 := by
  have h1 := Int.floor_le y
  unfold roundHalfEven
  simp only
  split_ifs with a b c
  · linarith
  · push_cast; linarith
  · linarith
  · push_cast; linarith

theorem sub_half_le_roundHalfEven (y : ℚ) : y - 1 / 2 ≤ (roundHalfEven y : ℚ) := by
  have h2 := Int.lt_floor_add_one y
  unfold roundHalfEven
  simp only
  split_ifs with a b c
  · linarith
  · push_cast; linarith
  · linarith
  · push_cast; linarith

theorem binary64_exponent_le (x : ℚ) (h0 : 0 ≤ x) (h1 : x < 2 ^ 17) :
    max (Int.log 2 |x|) (-1022) ≤ 16 := by
  rw [abs_of_nonneg h0]
  apply max_le _ (by norm_num)
  rcases h0.eq_or_lt with h | h
  · rw [← h, Int.log_of_right_le_zero 2 (le_refl (0:ℚ))]; norm_num
  · have : Int.log 2 x < 17 := by
      rw [← Int.lt_zpow_iff_log_lt (by norm_num) h]
      exact_mod_cast h1
    omega

theorem roundBinary64_bounds (x : ℚ) (h0 : 0 ≤ x) (h1 : x ≤ 90000 - 90000 / 2 ^ 53) :
    0 ≤ roundBinary64 x ∧ roundBinary64 x < 90000 := by
  have hx17 : x < 2 ^ 17 := by
    have : (90000 : ℚ) - 90000 / 2 ^ 53 < 2 ^ 17 := by norm_num
    linarith
  have hE := binary64_exponent_le x h0 hx17
  unfold roundBinary64
  simp only
  generalize max (Int.log 2 |x|) (-1022) = E at hE
  have hu0 : (0 : ℚ) < 2 ^ (E - 52) := zpow_pos (by norm_num) _
  have hu1 : (2 : ℚ) ^ (E - 52) ≤ 2 ^ (-36 : ℤ) :=
    zpow_le_zpow_right₀ (by norm_num) (by omega)
  have hu2 : (2 : ℚ) ^ (-36 : ℤ) = 1 / 2 ^ 36 := by
    rw [zpow_neg]; norm_cast; simp
  generalize (2 : ℚ) ^ (E - 52) = u at hu0 hu1
  have hle := roundHalfEven_le (x / u)
  have hge := sub_half_le_roundHalfEven (x / u)
  constructor
  · have hy : 0 ≤ x / u := div_nonneg h0 hu0.le
    have : (-1 : ℚ) < (roundHalfEven (x / u) : ℚ) := by linarith
    have hn : (-1 : ℤ) < roundHalfEven (x / u) := by exact_mod_cast this
    have hn0 : (0 : ℚ) ≤ (roundHalfEven (x / u) : ℚ) := by exact_mod_cast (by omega : (0:ℤ) ≤ roundHalfEven (x / u))
    exact mul_nonneg hn0 hu0.le
  · have h3 : (roundHalfEven (x / u) : ℚ) * u ≤ (x / u + 1 / 2) * u :=
      mul_le_mul_of_nonneg_right hle hu0.le
    have h4 : (x / u + 1 / 2) * u = x + u / 2 := by
      field_simp
      ring
    rw [h4] at h3
    rw [hu2] at hu1
    have : (90000 : ℚ) - 90000 / 2 ^ 53 + (1 / 2 ^ 36) / 2 < 90000 := by norm_num
    linarith

theorem binary64_lt_one (r : ℚ) (hd : IsBinary64 r) (h1 : r < 1) : r ≤ 1 - 1 / 2 ^ 53 := by
  obtain ⟨m, e, hm, _, _, rfl⟩ := hd
  by_cases he : -53 ≤ e
  · obtain ⟨k, hk⟩ : ∃ k : ℕ, e = (k : ℤ) - 53 := ⟨(e + 53).toNat, by omega⟩
    subst hk
    have hz : (2 : ℚ) ^ ((k : ℤ) - 53) = 2 ^ k / 2 ^ 53 := by
      rw [zpow_sub₀ (by norm_num), zpow_natCast]
      norm_cast
    rw [hz] at h1 ⊢
    have hpos : (0 : ℚ) < 2 ^ 53 := by positivity
    have h2 : ((m * 2 ^ k : ℕ) : ℚ) < ((2 ^ 53 : ℕ) : ℚ) := by
      push_cast
      have := (div_lt_one hpos).mp (by rw [← mul_div_assoc] at h1; exact h1)
      exact this
    have h3 : m * 2 ^ k < 2 ^ 53 := by exact_mod_cast h2
    have h4 : m * 2 ^ k + 1 ≤ 2 ^ 53 := h3
    have h5 : ((m * 2 ^ k + 1 : ℕ) : ℚ) ≤ ((2 ^ 53 : ℕ) : ℚ) := by exact_mod_cast h4
    push_cast at h5
    rw [← mul_div_assoc, div_le_iff₀ hpos]
    have : (1 - 1 / (2:ℚ) ^ 53) * 2 ^ 53 = 2 ^ 53 - 1 := by field_simp
    rw [this]
    linarith
  · have he2 : e ≤ -54 := by omega
    have hz : (2 : ℚ) ^ e ≤ 2 ^ (-54 : ℤ) := zpow_le_zpow_right₀ (by norm_num) he2
    have hz2 : (2 : ℚ) ^ (-54 : ℤ) = 1 / 2 ^ 54 := by
      rw [zpow_neg]; norm_cast; simp
    rw [hz2] at hz
    have hm2 : (m : ℚ) ≤ 2 ^ 53 := by exact_mod_cast hm.le
    have hzpos : (0 : ℚ) < 2 ^ e := zpow_pos (by norm_num) _
    have : (m : ℚ) * 2 ^ e ≤ 2 ^ 53 * (1 / 2 ^ 54) :=
      mul_le_mul hm2 hz hzpos.le (by positivity)
    have h6 : (2 : ℚ) ^ 53 * (1 / 2 ^ 54) ≤ 1 - 1 / 2 ^ 53 := by norm_num
    linarith

theorem toDigits_five (k : ℕ) (h1 : 10000 ≤ k) (h2 : k ≤ 99999) :
    Nat.toDigits 10 k = [Nat.digitChar (k / 10000), Nat.digitChar (k / 1000 % 10),
      Nat.digitChar (k / 100 % 10), Nat.digitChar (k / 10 % 10), Nat.digitChar (k % 10)] := by
  unfold Nat.toDigits
  obtain ⟨f, hf⟩ : ∃ f, k + 1 = f + 1 + 1 + 1 + 1 + 1 := ⟨k - 4, by omega⟩
  rw [hf]
  have e1 : k / 10 ≠ 0 := by omega
  have e2 : k / 10 / 10 ≠ 0 := by omega
  have e3 : k / 10 / 10 / 10 ≠ 0 := by omega
  have e4 : k / 10 / 10 / 10 / 10 ≠ 0 := by omega
  have e5 : k / 10 / 10 / 10 / 10 / 10 = 0 := by omega
  simp only [Nat.toDigitsCore, e1, e2, e3, e4, e5, if_true, if_false]
  have a1 : k / 10 / 10 / 10 / 10 % 10 = k / 10000 := by omega
  have a2 : k / 10 / 10 / 10 % 10 = k / 1000 % 10 := by omega
  have a3 : k / 10 / 10 % 10 = k / 100 % 10 := by omega
  rw [a1, a2, a3]

theorem digitChar_isDigit (k : ℕ) (h : k < 10) : (Nat.digitChar k).isDigit = true := by
  interval_cases k <;> decide

theorem tid_data_five (k : ℕ) (h1 : 10000 ≤ k) (h2 : k ≤ 99999) :
    ("TID" ++ toString (k : ℤ)).data =
      ['T', 'I', 'D', Nat.digitChar (k / 10000), Nat.digitChar (k / 1000 % 10),
        Nat.digitChar (k / 100 % 10), Nat.digitChar (k / 10 % 10), Nat.digitChar (k % 10)] := by
  have : toString (k : ℤ) = String.mk (Nat.toDigits 10 k) := rfl
  rw [this, toDigits_five k h1 h2]
  rfl

/-- The number behind an identifier lies between 10000 and 99999. -/
theorem digitalIdNumber_range (r : ℚ) (h0 : 0 ≤ r) (h1 : r < 1) (hd : IsBinary64 r) :
    10000 ≤ digitalIdNumber r ∧ digitalIdNumber r ≤ 99999 := by
  have hr := binary64_lt_one r hd h1
  have hx0 : 0 ≤ r * 90000 := by positivity
  have hx1 : r * 90000 ≤ 90000 - 90000 / 2 ^ 53 := by
    have : r * 90000 ≤ (1 - 1 / 2 ^ 53) * 90000 := by
      apply mul_le_mul_of_nonneg_right hr (by norm_num)
    have h2 : (1 - 1 / (2:ℚ) ^ 53) * 90000 = 90000 - 90000 / 2 ^ 53 := by ring
    linarith
  obtain ⟨hb0, hb1⟩ := roundBinary64_bounds (r * 90000) hx0 hx1
  have hf0 : 0 ≤ ⌊roundBinary64 (r * 90000)⌋ := Int.floor_nonneg.mpr hb0
  have hf1 : ⌊roundBinary64 (r * 90000)⌋ < 90000 := by
    rw [Int.floor_lt]
    exact_mod_cast hb1
  unfold digitalIdNumber
  omega

/-- C8: for every binary64 value `r` in [0, 1) returned by `Math.random()`, the
identifier is "TID" followed by the decimal form of
`Math.floor(r * 90000) + 10000`, that number lies between 10000 and 99999, the
identifier is `TID` followed by exactly five decimal digits, and it is the
`digitalId` of the record a successful registration appends. -/
theorem makeDigitalId_five_digits (r : ℚ) (h0 : 0 ≤ r) (h1 : r < 1) (hd : IsBinary64 r) :
    ∃ n : ℕ, (n : ℤ) = ⌊roundBinary64 (r * 90000)⌋ + 10000 ∧ 10000 ≤ n ∧ n ≤ 99999 ∧
      makeDigitalId r = "TID" ++ toString n ∧
      (∃ d1 d2 d3 d4 d5 : Char,
        (makeDigitalId r).data = ['T', 'I', 'D', d1, d2, d3, d4, d5] ∧
        d1.isDigit = true ∧ d2.isDigit = true ∧ d3.isDigit = true ∧ d4.isDigit = true ∧
        d5.isDigit = true) ∧
      (∀ (s : State) (form : RegForm) (photoFile : Option FileRead),
        form.hasBlankField = false → photoFile ≠ some FileRead.failed →
        ∃ t, (regFormSubmit s form photoFile r).state.issuedIDs = s.issuedIDs ++ [t] ∧
          t.digitalId = "TID" ++ toString n) := by
  obtain ⟨hlo, hhi⟩ := digitalIdNumber_range r h0 h1 hd
  obtain ⟨n, hn⟩ : ∃ n : ℕ, digitalIdNumber r = (n : ℤ) :=
    ⟨(digitalIdNumber r).toNat, by omega⟩
  have hn1 : 10000 ≤ n := by omega
  have hn2 : n ≤ 99999 := by omega
  have hid : makeDigitalId r = "TID" ++ toString n := by
    unfold makeDigitalId
    rw [hn]
    rfl
  refine ⟨n, ?_, hn1, hn2, hid, ?_, ?_⟩
  · rw [← hn]
    rfl
  · refine ⟨Nat.digitChar (n / 10000), Nat.digitChar (n / 1000 % 10),
      Nat.digitChar (n / 100 % 10), Nat.digitChar (n / 10 % 10), Nat.digitChar (n % 10),
      ?_, ?_, ?_, ?_, ?_, ?_⟩
    · unfold makeDigitalId
      rw [hn]
      exact tid_data_five n hn1 hn2
    · exact digitChar_isDigit _ (by omega)
    · exact digitChar_isDigit _ (by omega)
    · exact digitChar_isDigit _ (by omega)
    · exact digitChar_isDigit _ (by omega)
    · exact digitChar_isDigit _ (by omega)
  · intro s form photoFile hb hp
    obtain ⟨photoBase64, hout⟩ := regFormSubmit_of_valid s form photoFile r hb hp
    rw [hout, hid]
    exact ⟨_, rfl, rfl⟩

/-- Witness for C8, at the value one half. -/
theorem makeDigitalId_five_digits_witness :
    ((0 : ℚ) ≤ 1 / 2 ∧ (1 / 2 : ℚ) < 1 ∧ IsBinary64 (1 / 2)) ∧
    ∃ n : ℕ, (n : ℤ) = ⌊roundBinary64 ((1 / 2 : ℚ) * 90000)⌋ + 10000 ∧ 10000 ≤ n ∧
      n ≤ 99999 ∧
      makeDigitalId (1 / 2) = "TID" ++ toString n ∧
      (∃ d1 d2 d3 d4 d5 : Char,
        (makeDigitalId (1 / 2)).data = ['T', 'I', 'D', d1, d2, d3, d4, d5] ∧
        d1.isDigit = true ∧ d2.isDigit = true ∧ d3.isDigit = true ∧ d4.isDigit = true ∧
        d5.isDigit = true) ∧
      (∀ (s : State) (form : RegForm) (photoFile : Option FileRead),
        form.hasBlankField = false → photoFile ≠ some FileRead.failed →
        ∃ t, (regFormSubmit s form photoFile (1 / 2)).state.issuedIDs = s.issuedIDs ++ [t] ∧
          t.digitalId = "TID" ++ toString n) :=
  ⟨⟨by norm_num, by norm_num, ⟨1, -1, by norm_num, by norm_num, by norm_num, by norm_num⟩⟩,
   makeDigitalId_five_digits (1 / 2) (by norm_num) (by norm_num)
     ⟨1, -1, by norm_num, by norm_num, by norm_num, by norm_num⟩⟩

/-! ## Identifiers stay non-empty along a run -/

theorem forall_mem_mutateFirst {α : Type} (P : α → Prop) (p : α → Bool) (f : α → α)
    (l : List α) (hf : ∀ y, P y → P (f y)) (hl : ∀ y ∈ l, P y) :
    ∀ x ∈ mutateFirst p f l, P x := by
  induction l with
  | nil =>
    intro x hx
    cases hx
  | cons y ys ih =>
    have hy : P y := hl y (List.mem_cons_self y ys)
    have hys : ∀ z ∈ ys, P z := fun z hz => hl z (List.mem_cons_of_mem y hz)
    intro x hx
    by_cases hp : p y = true
    · simp only [mutateFirst, hp, if_true] at hx
      rcases List.mem_cons.mp hx with rfl | hmem
      · exact hf y hy
      · exact hys x hmem
    · have hp0 : p y = false := by simpa using hp
      simp only [mutateFirst, hp0] at hx
      rcases List.mem_cons.mp hx with rfl | hmem
      · exact hy
      · exact ih hys x hmem

theorem makeDigitalId_ne_empty (random : ℚ) : makeDigitalId random ≠ "" := by
  intro h
  have hlen := congrArg String.length h
  unfold makeDigitalId at hlen
  rw [String.length_append] at hlen
  have h3 : "TID".length = 3 := by decide
  have h0 : "".length = 0 := by decide
  omega

theorem idsNonEmpty_init : IdsNonEmpty State.init := by
  constructor
  · intro t ht
    cases ht
  · intro c hc
    cases hc

theorem idsNonEmpty_regFormSubmit (s : State) (form : RegForm) (photoFile : Option FileRead)
    (random : ℚ) (h : IdsNonEmpty s) :
    IdsNonEmpty (regFormSubmit s form photoFile random).state := by
  cases hb : form.hasBlankField with
  | true =>
    rw [regFormSubmit_of_blank s form photoFile random hb]
    exact h
  | false =>
    by_cases hp : photoFile = some FileRead.failed
    · subst hp
      rw [regFormSubmit_of_failed_read s form random hb]
      exact h
    · obtain ⟨photoBase64, hout⟩ := regFormSubmit_of_valid s form photoFile random hb hp
      rw [hout]
      refine ⟨?_, h.2⟩
      intro t ht
      rcases List.mem_append.mp ht with h1 | h1
      · exact h.1 t h1
      · rw [List.mem_singleton.mp h1]
        exact makeDigitalId_ne_empty random

theorem idsNonEmpty_checkIn (s : State) (id location now : String) (h : IdsNonEmpty s) :
    IdsNonEmpty (checkIn s id location now).state := by
  cases hfind : s.issuedIDs.find? (activeWithId id) with
  | none =>
    unfold checkIn
    rw [hfind]
    exact h
  | some t =>
    rw [checkIn_of_first_active s id location now t hfind]
    have hmem : t ∈ s.issuedIDs := List.mem_of_find?_eq_some hfind
    have hact : activeWithId id t = true := List.find?_some hfind
    have hid : id ≠ "" := by
      rw [← ((activeWithId_iff id t).mp hact).1]
      exact h.1 t hmem
    constructor
    · exact forall_mem_mutateFirst (fun t : Tourist => t.digitalId ≠ "") _ _ _ (fun _ hy => hy) h.1
    · intro c hc
      rcases List.mem_append.mp hc with h1 | h1
      · exact h.2 c h1
      · rw [List.mem_singleton.mp h1]
        exact hid

theorem idsNonEmpty_checkout (s : State) (id time : String) (h : IdsNonEmpty s) :
    IdsNonEmpty (checkout s id time) := by
  constructor
  · unfold checkout
    cases s.checkins.find? (checkoutMatch id time) with
    | none => exact h.1
    | some c =>
      simp only
      split
      · exact forall_mem_mutateFirst (fun t : Tourist => t.digitalId ≠ "") _ _ _ (fun _ hy => hy) h.1
      · exact h.1
  · rw [checkout_checkins]
    exact forall_mem_mutateFirst (fun c : Checkin => c.id ≠ "") _ _ _ (fun _ hy => hy) h.2

theorem idsNonEmpty_fileReport (s : State) (id type desc location date now : String)
    (h : IdsNonEmpty s) : IdsNonEmpty (fileReport s id type desc location date now).state := by
  unfold fileReport
  cases s.issuedIDs.find? (activeWithId id) with
  | none => exact h
  | some t => exact h

theorem idsNonEmpty_step (s : State) (a : Action) (h : IdsNonEmpty s) :
    IdsNonEmpty (step s a).state := by
  cases a with
  | register form photoFile random => exact idsNonEmpty_regFormSubmit s form photoFile random h
  | checkIn checkinId checkinLocation now => exact idsNonEmpty_checkIn s _ _ now h
  | checkOut id time => exact idsNonEmpty_checkout s id time h
  | fileReport firId firType firDesc firLocation firDate now =>
    exact idsNonEmpty_fileReport s _ firType _ _ firDate now h
  | sos sosId =>
    simp only [step, sosBtnClick]
    rw [triggerSOS_state]
    exact h
  | search filter => exact h

theorem idsNonEmpty_run (acts : List Action) :
    ∀ s : State, IdsNonEmpty s → IdsNonEmpty (run s acts) := by
  induction acts with
  | nil => intro s h; exact h
  | cons a rest ih =>
    intro s h
    exact ih (step s a).state (idsNonEmpty_step s a h)

/-! ## Search -/

theorem includesChars_iff (s q : List Char) : includesChars s q = true ↔ q <:+: s := by
  induction s with
  | nil =>
    cases q with
    | nil => simp [includesChars]
    | cons c cs => simp [includesChars]
  | cons c s ih =>
    simp only [includesChars, Bool.or_eq_true, ih, List.infix_cons_iff,
      List.isPrefixOf_iff_prefix]

theorem jsIncludes_iff (s q : String) : jsIncludes s q = true ↔ q.data <:+: s.data :=
  includesChars_iff s.data q.data

theorem string_ne_empty_iff (s : String) : (s != "") = true ↔ s ≠ "" := by
  simp

theorem checkinShown_iff (lower : String → String) (q : String) (c : Checkin) :
    checkinShown lower q c = true ↔
      (c.name ≠ "" ∧ q.data <:+: (lower c.name).data) ∨
      (c.id ≠ "" ∧ q.data <:+: (lower c.id).data) ∨
      (c.location ≠ "" ∧ q.data <:+: (lower c.location).data) := by
  simp only [checkinShown, Bool.or_eq_true, Bool.and_eq_true, string_ne_empty_iff,
    jsIncludes_iff, or_assoc]

theorem infix_empty_data (lower : String → String) (h0 : lower "" = "") (q : String)
    (h : q.data <:+: (lower "").data) : q.data = [] := by
  rw [h0] at h
  exact List.infix_nil.mp h

/-- On a row with a non-empty name, id or location the filter of
`renderCheckins` decides the criterion of the specification. -/
theorem checkinShown_iff_searchMatches (lower : String → String) (h0 : lower "" = "")
    (query : String) (c : Checkin)
    (hne : c.name ≠ "" ∨ c.id ≠ "" ∨ c.location ≠ "") :
    checkinShown lower (lower query) c = true ↔ searchMatches lower query c := by
  rw [checkinShown_iff]
  unfold searchMatches
  constructor
  · rintro (⟨_, h⟩ | ⟨_, h⟩ | ⟨_, h⟩)
    · exact Or.inl h
    · exact Or.inr (Or.inl h)
    · exact Or.inr (Or.inr h)
  · intro h
    by_cases hq : (lower query).data = []
    · have hall : ∀ l : List Char, (lower query).data <:+: l := by
        intro l
        rw [hq]
        exact List.nil_infix
      rcases hne with h1 | h1 | h1
      · exact Or.inl ⟨h1, hall _⟩
      · exact Or.inr (Or.inl ⟨h1, hall _⟩)
      · exact Or.inr (Or.inr ⟨h1, hall _⟩)
    · have key : ∀ f : String, (lower query).data <:+: (lower f).data → f ≠ "" := by
        rintro f hf rfl
        exact hq (infix_empty_data lower h0 _ hf)
      rcases h with h | h | h
      · exact Or.inl ⟨key _ h, h⟩
      · exact Or.inr (Or.inl ⟨key _ h, h⟩)
      · exact Or.inr (Or.inr ⟨key _ h, h⟩)

/-- On a ledger whose rows each have a non-empty name, id or location,
`renderCheckins` lists the rows that meet the criterion of the specification,
newest first. -/
theorem renderCheckins_eq_filter (lower : String → String) (h0 : lower "" = "")
    (ledger : List Checkin) (query : String)
    (hne : ∀ c ∈ ledger, c.name ≠ "" ∨ c.id ≠ "" ∨ c.location ≠ "") :
    renderCheckins lower ledger query =
      (ledger.filter (fun c => decide (searchMatches lower query c))).reverse := by
  unfold renderCheckins
  simp only
  congr 1
  apply List.filter_congr
  intro c hc
  have := checkinShown_iff_searchMatches lower h0 query c (hne c hc)
  by_cases hm : searchMatches lower query c
  · simp [hm, this.mpr hm]
  · have hs : checkinShown lower (lower query) c = false := by
      cases hsh : checkinShown lower (lower query) c with
      | false => rfl
      | true => exact absurd (this.mp hsh) hm
    simp [hm, hs]

/-! ## A sample run -/

theorem roundHalfEven_intCast (z : ℤ) : roundHalfEven (z : ℚ) = z := by
  unfold roundHalfEven
  simp

theorem roundBinary64_45000 : roundBinary64 45000 = 45000 := by
  unfold roundBinary64
  have hlog : Int.log 2 |(45000 : ℚ)| = 15 := by
    rw [abs_of_nonneg (by norm_num)]
    have : (45000 : ℚ) = ((45000 : ℕ) : ℚ) := by norm_num
    rw [this, Int.log_natCast]
    have : Nat.log 2 45000 = 15 := Nat.log_eq_of_pow_le_of_lt_pow (by norm_num) (by norm_num)
    rw [this]
    rfl
  simp only [hlog]
  have hmax : max (15 : ℤ) (-1022) = 15 := by decide
  rw [hmax]
  have hu : (2 : ℚ) ^ ((15 : ℤ) - 52) = 1 / 2 ^ 37 := by
    have : (15 : ℤ) - 52 = -37 := by norm_num
    rw [this, zpow_neg]
    norm_cast
    simp
  rw [hu]
  have hy : (45000 : ℚ) / (1 / 2 ^ 37) = ((45000 * 2 ^ 37 : ℤ) : ℚ) := by
    push_cast
    field_simp
    norm_num
  rw [hy, roundHalfEven_intCast]
  push_cast
  field_simp
  norm_num

theorem digitalIdNumber_half : digitalIdNumber (1 / 2) = ((55000 : ℕ) : ℤ) := by
  unfold digitalIdNumber
  have h1 : (1 / 2 : ℚ) * 90000 = 45000 := by norm_num
  rw [h1, roundBinary64_45000]
  have h2 : ⌊(45000 : ℚ)⌋ = 45000 := by
    have : (45000 : ℚ) = ((45000 : ℤ) : ℚ) := by norm_num
    rw [this, Int.floor_intCast]
  rw [h2]
  norm_num

theorem digits_55000 :
    ['T', 'I', 'D', Nat.digitChar (55000 / 10000), Nat.digitChar (55000 / 1000 % 10),
      Nat.digitChar (55000 / 100 % 10), Nat.digitChar (55000 / 10 % 10),
      Nat.digitChar (55000 % 10)] = ['T', 'I', 'D', '5', '5', '0', '0', '0'] := by
  decide

theorem makeDigitalId_half : makeDigitalId (1 / 2) = "TID55000" := by
  unfold makeDigitalId
  rw [digitalIdNumber_half]
  apply String.ext
  rw [tid_data_five 55000 (by norm_num) (by norm_num), digits_55000]

theorem regFormSubmit_ashaForm :
    (regFormSubmit State.init ashaForm none (1 / 2)).state =
      { issuedIDs := [asha], firReports := [], checkins := [] } := by
  have hout : regFormSubmit State.init ashaForm none (1 / 2) =
      ⟨{ issuedIDs := [{ asha with digitalId := makeDigitalId (1 / 2) }],
         firReports := [], checkins := [] }, none⟩ := by
    unfold regFormSubmit
    simp only [regFormSubmit_test]
    rw [if_neg (by decide)]
    rfl
  rw [hout, makeDigitalId_half]
  rfl

theorem run_nil (s : State) : run s [] = s := rfl

theorem run_cons (s : State) (a : Action) (rest : List Action) :
    run s (a :: rest) = run (step s a).state rest := rfl

theorem step_register (s : State) (form : RegForm) (photoFile : Option FileRead)
    (random : ℚ) :
    step s (Action.register form photoFile random) = regFormSubmit s form photoFile random :=
  rfl

theorem step_checkIn (s : State) (checkinId checkinLocation now : String) :
    step s (Action.checkIn checkinId checkinLocation now) =
      checkinFormSubmit s checkinId checkinLocation now :=
  rfl

theorem run_sampleActions : run State.init sampleActions = onceCheckedIn := by
  rw [sampleActions, run_cons, run_cons, run_nil, step_register, regFormSubmit_ashaForm,
    step_checkIn]
  decide

/-! ## Ledger rows are kept -/

theorem rowKept_refl (c : Checkin) : RowKept c c :=
  ⟨rfl, rfl, rfl, rfl, fun h => h⟩

theorem rowKept_checkedOut (c : Checkin) :
    RowKept c { c with status := Status.checkedOut } :=
  ⟨rfl, rfl, rfl, rfl, fun _ => rfl⟩

theorem ledgerKept_refl (l : List Checkin) : LedgerKept l l :=
  ⟨le_refl _, fun _ c h => ⟨c, h, rowKept_refl c⟩⟩

theorem ledgerKept_append (l : List Checkin) (e : Checkin) : LedgerKept l (l ++ [e]) := by
  refine ⟨by simp, fun i c h => ⟨c, ?_, rowKept_refl c⟩⟩
  have hi : i < l.length := by
    by_contra hcon
    rw [List.getElem?_eq_none (by omega)] at h
    cases h
  rw [List.getElem?_append_left hi]
  exact h

theorem getElem?_mutateFirst {α : Type} (p : α → Bool) (f : α → α) (l : List α) :
    ∀ (i : Nat) (c : α), l[i]? = some c →
      (mutateFirst p f l)[i]? = some c ∨ (mutateFirst p f l)[i]? = some (f c) := by
  induction l with
  | nil =>
    intro i c h
    simp at h
  | cons x xs ih =>
    intro i c h
    by_cases hp : p x = true
    · cases i with
      | zero =>
        simp only [List.getElem?_cons_zero, Option.some.injEq] at h
        subst h
        right
        simp [mutateFirst, hp]
      | succ j =>
        left
        simpa [mutateFirst, hp] using h
    · have hp0 : p x = false := by simpa using hp
      cases i with
      | zero =>
        left
        simpa [mutateFirst, hp0] using h
      | succ j =>
        simp only [List.getElem?_cons_succ] at h
        rcases ih j c h with h1 | h1
        · left
          simpa [mutateFirst, hp0] using h1
        · right
          simpa [mutateFirst, hp0] using h1

theorem ledgerKept_mutateFirst (p : Checkin → Bool) (l : List Checkin) :
    LedgerKept l (mutateFirst p (fun c => { c with status := Status.checkedOut }) l) := by
  refine ⟨by rw [mutateFirst_length], fun i c h => ?_⟩
  rcases getElem?_mutateFirst p (fun c => { c with status := Status.checkedOut }) l i c h
    with h1 | h1
  · exact ⟨c, h1, rowKept_refl c⟩
  · exact ⟨_, h1, rowKept_checkedOut c⟩

theorem regFormSubmit_checkins (s : State) (form : RegForm) (photoFile : Option FileRead)
    (random : ℚ) : (regFormSubmit s form photoFile random).state.checkins = s.checkins := by
  cases hb : form.hasBlankField with
  | true => rw [regFormSubmit_of_blank s form photoFile random hb]
  | false =>
    by_cases hp : photoFile = some FileRead.failed
    · subst hp
      rw [regFormSubmit_of_failed_read s form random hb]
    · obtain ⟨photoBase64, hout⟩ := regFormSubmit_of_valid s form photoFile random hb hp
      rw [hout]

theorem ledgerKept_checkIn (s : State) (id location now : String) :
    LedgerKept s.checkins (checkIn s id location now).state.checkins := by
  cases hfind : s.issuedIDs.find? (activeWithId id) with
  | none =>
    unfold checkIn
    rw [hfind]
    exact ledgerKept_refl _
  | some t =>
    rw [checkIn_of_first_active s id location now t hfind]
    exact ledgerKept_append _ _

theorem fileReport_checkins (s : State) (id type desc location date now : String) :
    (fileReport s id type desc location date now).state.checkins = s.checkins := by
  unfold fileReport
  cases s.issuedIDs.find? (activeWithId id) with
  | none => rfl
  | some t => rfl

theorem ledgerKept_step (s : State) (a : Action) :
    LedgerKept s.checkins (step s a).state.checkins := by
  cases a with
  | register form photoFile random =>
    simp only [step]
    rw [regFormSubmit_checkins]
    exact ledgerKept_refl _
  | checkIn checkinId checkinLocation now => exact ledgerKept_checkIn s _ _ now
  | checkOut id time =>
    simp only [step]
    rw [checkout_checkins]
    exact ledgerKept_mutateFirst _ _
  | fileReport firId firType firDesc firLocation firDate now =>
    simp only [step, firFormSubmit]
    rw [fileReport_checkins]
    exact ledgerKept_refl _
  | sos sosId =>
    simp only [step, sosBtnClick]
    rw [triggerSOS_state]
    exact ledgerKept_refl _
  | search filter => exact ledgerKept_refl _

/-- C11: whatever the action and the state, no row leaves the ledger, every row
stays at its position with the same id, name, location and time, and a row that
is checked-out before the action is checked-out after it. -/
theorem step_keeps_ledger_rows (s : State) (a : Action) :
    s.checkins.length ≤ (step s a).state.checkins.length ∧
    ∀ (i : Nat) (c : Checkin), s.checkins[i]? = some c →
      ∃ c2, (step s a).state.checkins[i]? = some c2 ∧
        c2.id = c.id ∧ c2.name = c.name ∧ c2.location = c.location ∧ c2.time = c.time ∧
        (c.status = Status.checkedOut → c2.status = Status.checkedOut) :=
  ledgerKept_step s a

/-- Witness for C11: a check-out and a further check-in on a ledger whose only
row is checked-out. -/
theorem step_keeps_ledger_rows_witness :
    onceCheckedOut.checkins[0]? = some (ashaAt "1/1/2024, 10:00:00 AM" Status.checkedOut) ∧
    (∃ c2, (step onceCheckedOut
        (Action.checkOut "TID55000" "1/1/2024, 10:00:00 AM")).state.checkins[0]? = some c2 ∧
      c2.id = "TID55000" ∧ c2.name = "Asha Rao" ∧ c2.location = "Delhi" ∧
      c2.time = "1/1/2024, 10:00:00 AM" ∧
      ((ashaAt "1/1/2024, 10:00:00 AM" Status.checkedOut).status = Status.checkedOut →
        c2.status = Status.checkedOut)) ∧
    (∃ c2, (step onceCheckedOut
        (Action.checkIn "TID55000" "Agra" "1/2/2024, 9:00:00 AM")).state.checkins[0]? = some c2 ∧
      c2.id = "TID55000" ∧ c2.name = "Asha Rao" ∧ c2.location = "Delhi" ∧
      c2.time = "1/1/2024, 10:00:00 AM" ∧
      ((ashaAt "1/1/2024, 10:00:00 AM" Status.checkedOut).status = Status.checkedOut →
        c2.status = Status.checkedOut)) :=
  ⟨by decide,
   (step_keeps_ledger_rows onceCheckedOut
      (Action.checkOut "TID55000" "1/1/2024, 10:00:00 AM")).2 0
      (ashaAt "1/1/2024, 10:00:00 AM" Status.checkedOut) (by decide),
   (step_keeps_ledger_rows onceCheckedOut
      (Action.checkIn "TID55000" "Agra" "1/2/2024, 9:00:00 AM")).2 0
      (ashaAt "1/1/2024, 10:00:00 AM" Status.checkedOut) (by decide)⟩

/-! ## Registry flags and the ledger -/

theorem mutateFirst_congr {α : Type} (p q : α → Bool) (f : α → α) (l : List α)
    (h : ∀ x ∈ l, p x = q x) : mutateFirst p f l = mutateFirst q f l := by
  induction l with
  | nil => rfl
  | cons x xs ih =>
    have hx : p x = q x := h x (List.mem_cons_self x xs)
    have hxs : ∀ y ∈ xs, p y = q y := fun y hy => h y (List.mem_cons_of_mem x hy)
    simp only [mutateFirst, hx, ih hxs]

theorem find?_congr_of_mem {α : Type} (p q : α → Bool) (l : List α)
    (h : ∀ x ∈ l, p x = q x) : l.find? p = l.find? q := by
  induction l with
  | nil => rfl
  | cons x xs ih =>
    have hx : p x = q x := h x (List.mem_cons_self x xs)
    have hxs : ∀ y ∈ xs, p y = q y := fun y hy => h y (List.mem_cons_of_mem x hy)
    simp only [List.find?, hx, ih hxs]

theorem map_mutateFirst {α β : Type} (p : α → Bool) (f : α → α) (g : α → β) (l : List α)
    (h : ∀ x, g (f x) = g x) : (mutateFirst p f l).map g = l.map g := by
  induction l with
  | nil => rfl
  | cons x xs ih =>
    by_cases hp : p x = true
    · simp [mutateFirst, hp, h]
    · simp [mutateFirst, hp, ih]

/-- Updating the first element that satisfies `p` does not change what `find`
returns for a predicate `q` that `f` does not affect and that excludes `p`. -/
theorem find?_mutateFirst_other {α : Type} (p q : α → Bool) (f : α → α) (l : List α)
    (hq : ∀ x, q (f x) = q x) (hpq : ∀ x, p x = true → q x = false) :
    (mutateFirst p f l).find? q = l.find? q := by
  induction l with
  | nil => rfl
  | cons x xs ih =>
    by_cases hp : p x = true
    · have hqx : q x = false := hpq x hp
      have hqfx : q (f x) = false := by rw [hq x, hqx]
      simp [mutateFirst, hp, List.find?, hqx, hqfx]
    · have hp0 : p x = false := by simpa using hp
      cases hqx : q x with
      | true => simp [mutateFirst, hp0, List.find?, hqx]
      | false => simp [mutateFirst, hp0, List.find?, hqx, ih]

/-- The first element that satisfies `p` is, after the update, the updated one. -/
theorem find?_mutateFirst_same {α : Type} (p : α → Bool) (f : α → α) (l : List α)
    (hp : ∀ x, p x = true → p (f x) = true) :
    (mutateFirst p f l).find? p = (l.find? p).map f := by
  induction l with
  | nil => rfl
  | cons x xs ih =>
    by_cases hx : p x = true
    · simp [mutateFirst, hx, List.find?, hp x hx]
    · have hx0 : p x = false := by simpa using hx
      simp [mutateFirst, hx0, List.find?, ih]

theorem exists_mem_mutateFirst_iff {α : Type} (p : α → Bool) (f : α → α) (R : α → Prop)
    (l : List α) (h1 : ∀ x, p x = true → ¬ R x) (h2 : ∀ x, p x = true → ¬ R (f x)) :
    (∃ c ∈ mutateFirst p f l, R c) ↔ ∃ c ∈ l, R c := by
  induction l with
  | nil => simp [mutateFirst]
  | cons x xs ih =>
    by_cases hp : p x = true
    · simp only [mutateFirst, hp, if_true, List.mem_cons, exists_eq_or_imp]
      constructor
      · rintro (h | h)
        · exact absurd h (h2 x hp)
        · exact Or.inr h
      · rintro (h | h)
        · exact absurd h (h1 x hp)
        · exact Or.inr h
    · have hp0 : p x = false := by simpa using hp
      simp only [mutateFirst, hp0, List.mem_cons, exists_eq_or_imp]
      simp only [Bool.false_eq_true, if_false, List.mem_cons, exists_eq_or_imp, ih]

theorem find?_ne_none_of_mem_map (l : List Tourist) (id : String)
    (h : id ∈ l.map (fun t => t.digitalId)) :
    l.find? (fun t => t.digitalId == id) ≠ none := by
  intro hnone
  obtain ⟨x, hx, hid⟩ := List.mem_map.mp h
  have := List.find?_eq_none.mp hnone x hx
  simp at this
  exact this hid

theorem consistent_of_eq (s s2 : State) (h1 : s2.issuedIDs = s.issuedIDs)
    (h2 : s2.checkins = s.checkins) (h : Consistent s) : Consistent s2 := by
  unfold Consistent FlagsAgree at *
  rw [h1, h2]
  exact h

theorem consistent_init : Consistent State.init := by
  refine ⟨?_, ?_, ?_⟩
  · intro t ht
    cases ht
  · intro c hc
    cases hc
  · intro id t hf
    simp [State.init] at hf

theorem consistent_regFormSubmit (s : State) (form : RegForm) (photoFile : Option FileRead)
    (random : ℚ) (h : Consistent s) :
    Consistent (regFormSubmit s form photoFile random).state := by
  cases hb : form.hasBlankField with
  | true =>
    rw [regFormSubmit_of_blank s form photoFile random hb]
    exact h
  | false =>
    by_cases hp : photoFile = some FileRead.failed
    · subst hp
      rw [regFormSubmit_of_failed_read s form random hb]
      exact h
    · obtain ⟨photoBase64, hout⟩ := regFormSubmit_of_valid s form photoFile random hb hp
      rw [hout]
      obtain ⟨ha, hb2, hc⟩ := h
      refine ⟨?_, ?_, ?_⟩
      · intro t ht
        rcases List.mem_append.mp ht with h1 | h1
        · exact ha t h1
        · rw [List.mem_singleton.mp h1]
      · intro c hc2
        simp only [List.map_append, List.mem_append]
        exact Or.inl (hb2 c hc2)
      · intro id t hf
        simp only [List.find?_append] at hf
        cases hold : s.issuedIDs.find? (fun t => t.digitalId == id) with
        | some t1 =>
          rw [hold] at hf
          simp only [Option.or_some, Option.some.injEq] at hf
          subst hf
          exact hc id t1 hold
        | none =>
          rw [hold] at hf
          simp only [Option.none_or] at hf
          have hmem := List.mem_of_find?_eq_some hf
          rw [List.mem_singleton.mp hmem]
          constructor
          · intro hcon
            cases hcon
          · rintro ⟨c, hc2, hid, _⟩
            have hin := hb2 c hc2
            rw [hid] at hin
            exact absurd hold (find?_ne_none_of_mem_map s.issuedIDs id hin)

theorem activeWithId_eq_of_not_revoked (id : String) (l : List Tourist)
    (ha : ∀ t ∈ l, t.revoked = false) :
    ∀ x ∈ l, activeWithId id x = (fun t : Tourist => t.digitalId == id) x := by
  intro x hx
  simp [activeWithId, ha x hx]

theorem consistent_checkIn (s : State) (id location now : String) (h : Consistent s) :
    Consistent (checkIn s id location now).state := by
  cases hfind : s.issuedIDs.find? (activeWithId id) with
  | none =>
    unfold checkIn
    rw [hfind]
    exact h
  | some t0 =>
    rw [checkIn_of_first_active s id location now t0 hfind]
    obtain ⟨ha, hb, hc⟩ := h
    have hcongr := activeWithId_eq_of_not_revoked id s.issuedIDs ha
    have hfind2 : s.issuedIDs.find? (fun t => t.digitalId == id) = some t0 := by
      rw [← find?_congr_of_mem _ _ _ hcongr]
      exact hfind
    have hmem : t0 ∈ s.issuedIDs := List.mem_of_find?_eq_some hfind2
    have hid0 : t0.digitalId = id := by
      have := List.find?_some hfind2
      simpa using this
    rw [mutateFirst_congr _ _ _ _ hcongr]
    refine ⟨?_, ?_, ?_⟩
    · exact forall_mem_mutateFirst (fun t : Tourist => t.revoked = false) _ _ _
        (fun _ hy => hy) ha
    · intro c hc2
      dsimp only at hc2 ⊢
      rw [map_mutateFirst (fun t : Tourist => t.digitalId == id)
        (fun t : Tourist => { t with checkedIn := some true })
        (fun t : Tourist => t.digitalId) s.issuedIDs (fun _ => rfl)]
      rcases List.mem_append.mp hc2 with h1 | h1
      · exact hb c h1
      · rw [List.mem_singleton.mp h1]
        exact List.mem_map.mpr ⟨t0, hmem, hid0⟩
    · intro id2 t hf
      dsimp only at hf ⊢
      by_cases hid : id2 = id
      · subst hid
        rw [find?_mutateFirst_same (fun t : Tourist => t.digitalId == id2)
          (fun t : Tourist => { t with checkedIn := some true }) s.issuedIDs
          (fun _ hx => hx), hfind2] at hf
        simp only [Option.map_some', Option.some.injEq] at hf
        subst hf
        constructor
        · intro _
          exact ⟨_, List.mem_append.mpr (Or.inr (List.mem_singleton.mpr rfl)), rfl, rfl⟩
        · intro _
          rfl
      · rw [find?_mutateFirst_other (fun t : Tourist => t.digitalId == id)
          (fun t : Tourist => t.digitalId == id2)
          (fun t : Tourist => { t with checkedIn := some true }) s.issuedIDs
          (fun _ => rfl)] at hf
        · rw [hc id2 t hf]
          constructor
          · rintro ⟨c, hc2, hcid, hst⟩
            exact ⟨c, List.mem_append.mpr (Or.inl hc2), hcid, hst⟩
          · rintro ⟨c, hc2, hcid, hst⟩
            rcases List.mem_append.mp hc2 with h1 | h1
            · exact ⟨c, h1, hcid, hst⟩
            · rw [List.mem_singleton.mp h1] at hcid
              exact absurd hcid.symm hid
        · intro x hx
          have hx1 : x.digitalId = id := by simpa using hx
          simp only [hx1, beq_eq_false_iff_ne, ne_eq]
          exact fun hcon => hid hcon.symm
theorem checkout_of_match (s : State) (id time : String)
    (hex : ∃ x ∈ s.checkins, checkoutMatch id time x = true) :
    checkout s id time =
      { s with
        issuedIDs :=
          if !(mutateFirst (checkoutMatch id time)
              (fun c => { c with status := Status.checkedOut }) s.checkins).any
                (fun c => c.id == id && c.status == Status.checkedIn) then
            mutateFirst (fun t => t.digitalId == id)
              (fun t => { t with checkedIn := some false }) s.issuedIDs
          else s.issuedIDs
        checkins := mutateFirst (checkoutMatch id time)
          (fun c => { c with status := Status.checkedOut }) s.checkins } := by
  obtain ⟨pre, c, post, _, _, _, hfind, _⟩ :=
    exists_first_split (checkoutMatch id time) (fun c => c) s.checkins hex
  unfold checkout
  rw [hfind]

theorem consistent_checkout (s : State) (id time : String) (h : Consistent s) :
    Consistent (checkout s id time) := by
  by_cases hex : ∃ x ∈ s.checkins, checkoutMatch id time x = true
  · obtain ⟨ha, hb, hc⟩ := h
    obtain ⟨c0, hc0mem, hc0⟩ := hex
    have hc0m := (checkoutMatch_iff id time c0).mp hc0
    rw [checkout_of_match s id time ⟨c0, hc0mem, hc0⟩]
    have hrows : ∀ c ∈ mutateFirst (checkoutMatch id time)
        (fun c => { c with status := Status.checkedOut }) s.checkins,
        c.id ∈ s.issuedIDs.map (fun t => t.digitalId) :=
      forall_mem_mutateFirst
        (fun c : Checkin => c.id ∈ s.issuedIDs.map (fun t : Tourist => t.digitalId))
        (checkoutMatch id time) (fun c : Checkin => { c with status := Status.checkedOut })
        s.checkins (fun _ hy => hy) hb
    have hothers : ∀ id2 : String, id2 ≠ id →
        ((∃ c ∈ mutateFirst (checkoutMatch id time)
            (fun c => { c with status := Status.checkedOut }) s.checkins,
            c.id = id2 ∧ c.status = Status.checkedIn) ↔
          ∃ c ∈ s.checkins, c.id = id2 ∧ c.status = Status.checkedIn) := by
      intro id2 hid
      apply exists_mem_mutateFirst_iff
      · intro x hx hR
        exact hid (hR.1.symm.trans ((checkoutMatch_iff id time x).mp hx).1)
      · intro x hx hR
        exact hid (hR.1.symm.trans ((checkoutMatch_iff id time x).mp hx).1)
    cases hany : (mutateFirst (checkoutMatch id time)
        (fun c => { c with status := Status.checkedOut }) s.checkins).any
          (fun c => c.id == id && c.status == Status.checkedIn) with
    | false =>
      simp only [Bool.not_false, if_true]
      refine ⟨?_, ?_, ?_⟩
      · exact forall_mem_mutateFirst (fun t : Tourist => t.revoked = false) _ _ _
          (fun _ hy => hy) ha
      · intro c hc2
        dsimp only at hc2 ⊢
        rw [map_mutateFirst (fun t : Tourist => t.digitalId == id)
          (fun t : Tourist => { t with checkedIn := some false })
          (fun t : Tourist => t.digitalId) s.issuedIDs (fun _ => rfl)]
        exact hrows c hc2
      · intro id2 t hf
        dsimp only at hf ⊢
        by_cases hid : id2 = id
        · subst hid
          rw [find?_mutateFirst_same (fun t : Tourist => t.digitalId == id2)
            (fun t : Tourist => { t with checkedIn := some false }) s.issuedIDs
            (fun _ hx => hx)] at hf
          cases hold : s.issuedIDs.find? (fun t => t.digitalId == id2) with
          | none =>
            rw [hold] at hf
            cases hf
          | some t1 =>
            rw [hold] at hf
            simp only [Option.map_some', Option.some.injEq] at hf
            subst hf
            constructor
            · intro hcon
              cases hcon
            · rintro ⟨c, hc2, hcid, hst⟩
              have htrue : (mutateFirst (checkoutMatch id2 time)
                  (fun c => { c with status := Status.checkedOut }) s.checkins).any
                    (fun c => c.id == id2 && c.status == Status.checkedIn) = true :=
                List.any_eq_true.mpr ⟨c, hc2, by simp [hcid, hst]⟩
              rw [hany] at htrue
              cases htrue
        · rw [find?_mutateFirst_other (fun t : Tourist => t.digitalId == id)
            (fun t : Tourist => t.digitalId == id2)
            (fun t : Tourist => { t with checkedIn := some false }) s.issuedIDs
            (fun _ => rfl)] at hf
          · rw [hc id2 t hf, hothers id2 hid]
          · intro x hx
            have hx1 : x.digitalId = id := by simpa using hx
            simp only [hx1, beq_eq_false_iff_ne, ne_eq]
            exact fun hcon => hid hcon.symm
    | true =>
      simp only [Bool.not_true, Bool.false_eq_true, if_false]
      refine ⟨ha, hrows, ?_⟩
      intro id2 t hf
      dsimp only at hf ⊢
      by_cases hid : id2 = id
      · subst hid
        have hflag : t.checkedIn = some true :=
          (hc id2 t hf).mpr ⟨c0, hc0mem, hc0m.1, hc0m.2.2⟩
        obtain ⟨c, hc2, hcp⟩ := List.any_eq_true.mp hany
        have hcp2 : c.id = id2 ∧ c.status = Status.checkedIn := by simpa using hcp
        exact ⟨fun _ => ⟨c, hc2, hcp2⟩, fun _ => hflag⟩
      · rw [hc id2 t hf, hothers id2 hid]
  · have hall : ∀ x ∈ s.checkins, checkoutMatch id time x = false := by
      intro x hx
      by_contra hcon
      exact hex ⟨x, hx, by simpa using hcon⟩
    rw [checkout_of_no_match s id time hall]
    exact h

theorem consistent_step (s : State) (a : Action) (h : Consistent s) :
    Consistent (step s a).state := by
  cases a with
  | register form photoFile random => exact consistent_regFormSubmit s form photoFile random h
  | checkIn checkinId checkinLocation now => exact consistent_checkIn s _ _ now h
  | checkOut id time => exact consistent_checkout s id time h
  | fileReport firId firType firDesc firLocation firDate now =>
    apply consistent_of_eq s _ _ _ h
    · simp only [step, firFormSubmit]
      rw [fileReport_issuedIDs]
    · simp only [step, firFormSubmit]
      rw [fileReport_checkins]
  | sos sosId =>
    simp only [step, sosBtnClick]
    rw [triggerSOS_state]
    exact h
  | search filter => exact h

theorem consistent_run (acts : List Action) :
    ∀ s : State, Consistent s → Consistent (run s acts) := by
  induction acts with
  | nil => intro s h; exact h
  | cons a rest ih =>
    intro s h
    exact ih (step s a).state (consistent_step s a h)

/-- C12: in every state reached from the empty initial state by a sequence of
actions, and for every identifier present in the registry, the `checkedIn` flag
of the first registry record with that identifier is `true` exactly when the
ledger holds a row with that identifier and status checked-in (an unset flag is
not `true`).  Nothing is assumed about identifiers being distinct or about the
times of the rows. -/
theorem flag_true_iff_checked_in_row (acts : List Action) (id : String) (t : Tourist)
    (h : (run State.init acts).issuedIDs.find? (fun t => t.digitalId == id) = some t) :
    t.checkedIn = some true ↔
      ∃ c ∈ (run State.init acts).checkins, c.id = id ∧ c.status = Status.checkedIn :=
  (consistent_run acts State.init consistent_init).2.2 id t h

/-- Witness for C12: after the sample registration and check-in the flag of
the record "TID55000" is `true` and the ledger holds her checked-in row. -/
theorem flag_true_iff_checked_in_row_witness :
    (run State.init sampleActions).issuedIDs.find? (fun t => t.digitalId == "TID55000") =
      some { asha with checkedIn := some true } ∧
    (({ asha with checkedIn := some true } : Tourist).checkedIn = some true ↔
      ∃ c ∈ (run State.init sampleActions).checkins,
        c.id = "TID55000" ∧ c.status = Status.checkedIn) :=
  ⟨by rw [run_sampleActions]; decide,
   flag_true_iff_checked_in_row sampleActions "TID55000" { asha with checkedIn := some true }
     (by rw [run_sampleActions]; decide)⟩

/-! ## The handlers on the values typed into the forms -/

theorem run_twoCityActions : run State.init twoCityActions = twoCities := by
  rw [twoCityActions, run_cons, run_cons, run_cons, run_nil, step_register,
    regFormSubmit_ashaForm, step_checkIn, step_checkIn]
  decide

/-- C3 (as stated, refuted): after the sample registration and check-in no
record has the identifier " TID55000 ", typed with white space around it, yet
the check-in handler succeeds for it. -/
theorem checkinFormSubmit_padded_id_succeeds :
    (¬ ∃ t ∈ (run State.init sampleActions).issuedIDs,
      t.digitalId = " TID55000 " ∧ t.revoked = false) ∧
    (checkinFormSubmit (run State.init sampleActions) " TID55000 " "Agra"
      "1/2/2024, 9:00:00 AM").error = none := by
  rw [run_sampleActions]
  decide

/-- C3 (amended): the check-in handler fails with the invalid-or-revoked-ID
error exactly when the registry holds no record whose `digitalId` equals the
submitted identifier with leading and trailing white space removed and whose
`revoked` flag is false; and whenever it fails, the registry, the ledger and
the report log are unchanged. -/
theorem checkinFormSubmit_fails_iff_no_active (s : State)
    (checkinId checkinLocation now : String) :
    ((checkinFormSubmit s checkinId checkinLocation now).error = some Error.invalidId ↔
      ¬ ∃ t ∈ s.issuedIDs, t.digitalId = jsTrim checkinId ∧ t.revoked = false) ∧
    ((checkinFormSubmit s checkinId checkinLocation now).error ≠ none →
      (checkinFormSubmit s checkinId checkinLocation now).state = s) :=
  checkIn_body_fails_iff s (jsTrim checkinId) (jsTrim checkinLocation) now

/-- Witness for C3 (amended): checking in with the identifier " unknown " at
"Delhi" fails and changes nothing. -/
theorem checkinFormSubmit_fails_iff_no_active_witness :
    (¬ ∃ t ∈ onceCheckedIn.issuedIDs, t.digitalId = jsTrim " unknown " ∧ t.revoked = false) ∧
    (checkinFormSubmit onceCheckedIn " unknown " "Delhi" "1/1/2024, 11:00:00 AM").error =
      some Error.invalidId ∧
    (checkinFormSubmit onceCheckedIn " unknown " "Delhi" "1/1/2024, 11:00:00 AM").state =
      onceCheckedIn :=
  ⟨by decide,
   (checkinFormSubmit_fails_iff_no_active onceCheckedIn " unknown " "Delhi"
      "1/1/2024, 11:00:00 AM").1.mpr (by decide),
   (checkinFormSubmit_fails_iff_no_active onceCheckedIn " unknown " "Delhi"
      "1/1/2024, 11:00:00 AM").2 (by decide)⟩

/-- C4 (as stated, refuted): after the sample registration and check-in, a
check-in of the active identifier "TID55000" at the submitted location " Agra "
appends a row whose location is "Agra", not the submitted string. -/
theorem checkinFormSubmit_location_not_exact :
    (∃ t ∈ (run State.init sampleActions).issuedIDs,
      t.digitalId = "TID55000" ∧ t.revoked = false) ∧
    (checkinFormSubmit (run State.init sampleActions) "TID55000" " Agra "
      "1/2/2024, 9:00:00 AM").state.checkins =
      (run State.init sampleActions).checkins ++ [agraRow] ∧
    agraRow.location ≠ " Agra " := by
  rw [run_sampleActions]
  decide

/-- C4 (amended): when the submitted identifier, with leading and trailing
white space removed, is the identifier of an active record, the check-in
handler succeeds and the ledger afterwards is the old ledger followed by one
new row with status checked-in, whose id and location are the submitted strings
with leading and trailing white space removed and whose name is the `fullName`
of the first registry record that has this id and is not revoked. -/
theorem checkinFormSubmit_appends_one_event (s : State)
    (checkinId checkinLocation now : String)
    (h : ∃ t ∈ s.issuedIDs, t.digitalId = jsTrim checkinId ∧ t.revoked = false) :
    ∃ pre t post,
      s.issuedIDs = pre ++ t :: post ∧
      (∀ x ∈ pre, ¬ (x.digitalId = jsTrim checkinId ∧ x.revoked = false)) ∧
      (t.digitalId = jsTrim checkinId ∧ t.revoked = false) ∧
      (checkinFormSubmit s checkinId checkinLocation now).error = none ∧
      (checkinFormSubmit s checkinId checkinLocation now).state.checkins =
        s.checkins ++ [{ name := t.fullName, id := jsTrim checkinId,
                         location := jsTrim checkinLocation, time := now,
                         status := Status.checkedIn }] :=
  checkIn_body_appends s (jsTrim checkinId) (jsTrim checkinLocation) now h

/-- Witness for C4 (amended): a second check-in of the registered tourist, with
white space typed around the identifier and the location. -/
theorem checkinFormSubmit_appends_one_event_witness :
    (∃ t ∈ onceCheckedIn.issuedIDs, t.digitalId = jsTrim " TID55000 " ∧ t.revoked = false) ∧
    ∃ pre t post,
      onceCheckedIn.issuedIDs = pre ++ t :: post ∧
      (∀ x ∈ pre, ¬ (x.digitalId = jsTrim " TID55000 " ∧ x.revoked = false)) ∧
      (t.digitalId = jsTrim " TID55000 " ∧ t.revoked = false) ∧
      (checkinFormSubmit onceCheckedIn " TID55000 " " Agra " "1/2/2024, 9:00:00 AM").error =
        none ∧
      (checkinFormSubmit onceCheckedIn " TID55000 " " Agra "
        "1/2/2024, 9:00:00 AM").state.checkins =
        onceCheckedIn.checkins ++ [{ name := t.fullName, id := jsTrim " TID55000 ",
                                     location := jsTrim " Agra ",
                                     time := "1/2/2024, 9:00:00 AM",
                                     status := Status.checkedIn }] :=
  ⟨by decide,
   checkinFormSubmit_appends_one_event onceCheckedIn " TID55000 " " Agra "
     "1/2/2024, 9:00:00 AM" (by decide)⟩

/-- C9 (as stated, refuted): after the sample registration and check-in no
record has the identifier " TID55000 ", yet the e-FIR handler accepts it, and
the report it appends carries the id "TID55000", the description "bag" and the
location "Delhi", not the submitted " TID55000 ", " bag " and " Delhi ". -/
theorem firFormSubmit_padded_values :
    (¬ ∃ t ∈ (run State.init sampleActions).issuedIDs,
      t.digitalId = " TID55000 " ∧ t.revoked = false) ∧
    (firFormSubmit (run State.init sampleActions) " TID55000 " "Theft" " bag " " Delhi "
      "2024-01-02" "1/2/2024, 9:00:00 AM").error = none ∧
    (firFormSubmit (run State.init sampleActions) " TID55000 " "Theft" " bag " " Delhi "
      "2024-01-02" "1/2/2024, 9:00:00 AM").state.firReports =
      [{ id := "TID55000", name := "Asha Rao", type := "Theft", desc := "bag",
         location := "Delhi", date := "2024-01-02", reportTime := "1/2/2024, 9:00:00 AM" }] := by
  rw [run_sampleActions]
  decide

/-- C9 (amended): the e-FIR handler fails with the invalid-or-revoked-ID error
exactly when the registry holds no record whose `digitalId` equals the
submitted identifier with leading and trailing white space removed and whose
`revoked` flag is false, and then all three arrays are unchanged; otherwise it
succeeds and appends exactly one report to the end of the log, carrying the
submitted identifier, description and location with leading and trailing white
space removed, the submitted type and date as they are, and the `fullName` of
the first such record, and it leaves the registry and the ledger as they were. -/
theorem firFormSubmit_spec (s : State)
    (firId firType firDesc firLocation firDate now : String) :
    ((firFormSubmit s firId firType firDesc firLocation firDate now).error =
        some Error.invalidId ↔
      ¬ ∃ t ∈ s.issuedIDs, t.digitalId = jsTrim firId ∧ t.revoked = false) ∧
    ((¬ ∃ t ∈ s.issuedIDs, t.digitalId = jsTrim firId ∧ t.revoked = false) →
      (firFormSubmit s firId firType firDesc firLocation firDate now).state = s) ∧
    ((∃ t ∈ s.issuedIDs, t.digitalId = jsTrim firId ∧ t.revoked = false) →
      ∃ pre t post,
        s.issuedIDs = pre ++ t :: post ∧
        (∀ x ∈ pre, ¬ (x.digitalId = jsTrim firId ∧ x.revoked = false)) ∧
        (t.digitalId = jsTrim firId ∧ t.revoked = false) ∧
        (firFormSubmit s firId firType firDesc firLocation firDate now).error = none ∧
        (firFormSubmit s firId firType firDesc firLocation firDate now).state.firReports =
          s.firReports ++ [{ id := jsTrim firId, name := t.fullName, type := firType,
                             desc := jsTrim firDesc, location := jsTrim firLocation,
                             date := firDate, reportTime := now }] ∧
        (firFormSubmit s firId firType firDesc firLocation firDate now).state.issuedIDs =
          s.issuedIDs ∧
        (firFormSubmit s firId firType firDesc firLocation firDate now).state.checkins =
          s.checkins) :=
  fileReport_body_spec s (jsTrim firId) firType (jsTrim firDesc) (jsTrim firLocation)
    firDate now

/-- Witness for C9 (amended): a report for an unknown identifier is refused and
changes nothing; a report for the registered tourist, typed with white space
around the identifier, the description and the location, is appended. -/
theorem firFormSubmit_spec_witness :
    ((¬ ∃ t ∈ onceCheckedIn.issuedIDs, t.digitalId = jsTrim "unknown" ∧ t.revoked = false) ∧
      (firFormSubmit onceCheckedIn "unknown" "Theft" "bag" "Delhi" "2024-01-02"
        "1/2/2024, 9:00:00 AM").state = onceCheckedIn) ∧
    ((∃ t ∈ onceCheckedIn.issuedIDs, t.digitalId = jsTrim " TID55000 " ∧ t.revoked = false) ∧
      ∃ pre t post,
        onceCheckedIn.issuedIDs = pre ++ t :: post ∧
        (∀ x ∈ pre, ¬ (x.digitalId = jsTrim " TID55000 " ∧ x.revoked = false)) ∧
        (t.digitalId = jsTrim " TID55000 " ∧ t.revoked = false) ∧
        (firFormSubmit onceCheckedIn " TID55000 " "Theft" " bag " " Delhi " "2024-01-02"
          "1/2/2024, 9:00:00 AM").error = none ∧
        (firFormSubmit onceCheckedIn " TID55000 " "Theft" " bag " " Delhi " "2024-01-02"
          "1/2/2024, 9:00:00 AM").state.firReports =
          onceCheckedIn.firReports ++ [{ id := jsTrim " TID55000 ", name := t.fullName,
                                         type := "Theft", desc := jsTrim " bag ",
                                         location := jsTrim " Delhi ", date := "2024-01-02",
                                         reportTime := "1/2/2024, 9:00:00 AM" }] ∧
        (firFormSubmit onceCheckedIn " TID55000 " "Theft" " bag " " Delhi " "2024-01-02"
          "1/2/2024, 9:00:00 AM").state.issuedIDs = onceCheckedIn.issuedIDs ∧
        (firFormSubmit onceCheckedIn " TID55000 " "Theft" " bag " " Delhi " "2024-01-02"
          "1/2/2024, 9:00:00 AM").state.checkins = onceCheckedIn.checkins) :=
  ⟨⟨by decide,
    (firFormSubmit_spec onceCheckedIn "unknown" "Theft" "bag" "Delhi" "2024-01-02"
      "1/2/2024, 9:00:00 AM").2.1 (by decide)⟩,
   ⟨by decide,
    (firFormSubmit_spec onceCheckedIn " TID55000 " "Theft" " bag " " Delhi " "2024-01-02"
      "1/2/2024, 9:00:00 AM").2.2 (by decide)⟩⟩

/-! ## Search on the ledgers a run produces -/

/-- C6: on the ledger of every state reached from the empty initial state, and
for every query, `renderCheckins` lists exactly the rows whose lower-cased
name, id or location contains the lower-cased query as a substring, newest
first; a query matched by no row yields the empty list.  `toLowerCase` is any
function that maps the empty string to itself. -/
theorem renderCheckins_on_run (lower : String → String) (h0 : lower "" = "")
    (acts : List Action) (query : String) :
    renderCheckins lower (run State.init acts).checkins query =
      ((run State.init acts).checkins.filter
        (fun c => decide (searchMatches lower query c))).reverse ∧
    ((∀ c ∈ (run State.init acts).checkins, ¬ searchMatches lower query c) →
      renderCheckins lower (run State.init acts).checkins query = []) := by
  have hne : ∀ c ∈ (run State.init acts).checkins,
      c.name ≠ "" ∨ c.id ≠ "" ∨ c.location ≠ "" := fun c hc =>
    Or.inr (Or.inl ((idsNonEmpty_run acts State.init idsNonEmpty_init).2 c hc))
  have heq := renderCheckins_eq_filter lower h0 (run State.init acts).checkins query hne
  refine ⟨heq, fun hnone => ?_⟩
  rw [heq, List.reverse_eq_nil_iff, List.filter_eq_nil_iff]
  intro c hc
  simpa using hnone c hc

/-- Witness for C6, on the ledger with a row at Delhi and a later row at Agra:
the query "RAO" lists both rows, the Agra row first; the query "DEL" lists the
Delhi row only; the query "xyz" matches no row and lists nothing. -/
theorem renderCheckins_on_run_witness :
    asciiLower "" = "" ∧
    (run State.init twoCityActions).checkins =
      [ashaAt "1/1/2024, 10:00:00 AM" Status.checkedIn, agraRow] ∧
    renderCheckins asciiLower (run State.init twoCityActions).checkins "RAO" =
      ((run State.init twoCityActions).checkins.filter
        (fun c => decide (searchMatches asciiLower "RAO" c))).reverse ∧
    ((run State.init twoCityActions).checkins.filter
        (fun c => decide (searchMatches asciiLower "RAO" c))).reverse =
      [agraRow, ashaAt "1/1/2024, 10:00:00 AM" Status.checkedIn] ∧
    renderCheckins asciiLower (run State.init twoCityActions).checkins "DEL" =
      ((run State.init twoCityActions).checkins.filter
        (fun c => decide (searchMatches asciiLower "DEL" c))).reverse ∧
    ((run State.init twoCityActions).checkins.filter
        (fun c => decide (searchMatches asciiLower "DEL" c))).reverse =
      [ashaAt "1/1/2024, 10:00:00 AM" Status.checkedIn] ∧
    (∀ c ∈ (run State.init twoCityActions).checkins, ¬ searchMatches asciiLower "xyz" c) ∧
    renderCheckins asciiLower (run State.init twoCityActions).checkins "xyz" = [] :=
  ⟨by decide,
   by rw [run_twoCityActions]; rfl,
   (renderCheckins_on_run asciiLower (by decide) twoCityActions "RAO").1,
   by rw [run_twoCityActions]; decide,
   (renderCheckins_on_run asciiLower (by decide) twoCityActions "DEL").1,
   by rw [run_twoCityActions]; decide,
   by rw [run_twoCityActions]; decide,
   (renderCheckins_on_run asciiLower (by decide) twoCityActions "xyz").2
     (by rw [run_twoCityActions]; decide)⟩

end TouristApp
